import Mathlib

/-!
# nes2kbd: the USB HID boot-keyboard firmware (`kbd.c`)

A shallow embedding of the two interrupt handlers of `kbd.c`, `ISR(USB_GEN_vect)` and
`ISR(USB_COM_vect)`, together with the descriptor tables they serve.

## Machine model

* `uint8_t` and `uint16_t` values are natural numbers; every store into an 8-bit variable or
  register is reduced `% 256`, every 16-bit value `% 65536`.
* The endpoint registers `UECONX`, `UECFG0X`, `UECFG1X`, `UEIENX` are banked by the endpoint
  number in `UENUM`; a bank holds the value the firmware last stored into it.
* `UEDATX` (the FIFO of the selected endpoint), `UEINTX` and `UERST` are not storage: every
  write is appended to `State.log`, tagged with the endpoint selected at that moment.
* What the USB controller presents on reads of `UEINTX` and `UEDATX` is not decided by the
  firmware.  The state carries it as a script: `ueintxIn` are the values of the next reads of
  `UEINTX`, after which every read returns `ueintxIdle`; `uedatxIn` are the bytes of the next
  reads of `UEDATX`, after which a read returns 0.  A busy-wait loop that never sees its flag
  does not return: the handler then yields `none`.  A handler that returns has read a finite
  part of the script only, so every returning run of the firmware is the run of some script.
-/

namespace Kbd

/-! ## Constants of `kbd.c` -/

def LSB (n : Nat) : Nat := n &&& 255
def MSB (n : Nat) : Nat := (n >>> 8) &&& 255
def MIN (a b : Nat) : Nat := if a < b then a else b

def GET_STATUS : Nat := 0
def CLEAR_FEATURE : Nat := 1
def SET_FEATURE : Nat := 3
def SET_ADDRESS : Nat := 5
def GET_DESCRIPTOR : Nat := 6
def GET_CONFIGURATION : Nat := 8
def SET_CONFIGURATION : Nat := 9

def HID_GET_REPORT : Nat := 1
def HID_GET_IDLE : Nat := 2
def HID_GET_PROTOCOL : Nat := 3
def HID_SET_REPORT : Nat := 9
def HID_SET_IDLE : Nat := 10
def HID_SET_PROTOCOL : Nat := 11

def EP_TYPE_CONTROL : Nat := 0x00
def EP_TYPE_INTERRUPT_IN : Nat := 0xC1
def EP_SINGLE_BUFFER : Nat := 0x02
def EP_DOUBLE_BUFFER : Nat := 0x06

def EP_SIZE (s : Nat) : Nat :=
  if s = 64 then 0x30 else if s = 32 then 0x20 else if s = 16 then 0x10 else 0x00

def ENDPOINT0_SIZE : Nat := 32
def KEYBOARD_INTERFACE : Nat := 0
def KEYBOARD_ENDPOINT : Nat := 3
def KEYBOARD_SIZE : Nat := 8
def KEYBOARD_BUFFER : Nat := EP_DOUBLE_BUFFER

def endpoint_config_table : List Nat :=
  [0,
   0,
   1, EP_TYPE_INTERRUPT_IN, EP_SIZE KEYBOARD_SIZE ||| KEYBOARD_BUFFER,
   0]

def VENDOR_ID : Nat := 0x16C0
def PRODUCT_ID : Nat := 0x047C

def device_descriptor : List Nat :=
  [18, 1, 0x00, 0x02, 0, 0, 0, ENDPOINT0_SIZE,
   LSB VENDOR_ID, MSB VENDOR_ID, LSB PRODUCT_ID, MSB PRODUCT_ID,
   0x00, 0x01, 0, 0, 0, 1]

def keyboard_hid_report_desc : List Nat :=
  [0x05, 0x01, 0x09, 0x06, 0xA1, 0x01, 0x75, 0x01, 0x95, 0x08, 0x05, 0x07,
   0x19, 0xE0, 0x29, 0xE7, 0x15, 0x00, 0x25, 0x01, 0x81, 0x02, 0x95, 0x01,
   0x75, 0x08, 0x81, 0x03, 0x95, 0x05, 0x75, 0x01, 0x05, 0x08, 0x19, 0x01,
   0x29, 0x05, 0x91, 0x02, 0x95, 0x01, 0x75, 0x03, 0x91, 0x03, 0x95, 0x06,
   0x75, 0x08, 0x15, 0x00, 0x25, 0x68, 0x05, 0x07, 0x19, 0x00, 0x29, 0x68,
   0x81, 0x00, 0xc0]

def CONFIG1_DESC_SIZE : Nat := 9 + 9 + 9 + 7
def KEYBOARD_HID_DESC_OFFSET : Nat := 9 + 9

def configuration_descriptor : List Nat :=
  [9, 2, LSB CONFIG1_DESC_SIZE, MSB CONFIG1_DESC_SIZE, 1, 1, 0, 0xC0, 50,
   9, 4, KEYBOARD_INTERFACE, 0, 1, 0x03, 0x01, 0x01, 0,
   9, 0x21, 0x11, 0x01, 0, 1, 0x22, keyboard_hid_report_desc.length, 0,
   7, 5, KEYBOARD_ENDPOINT ||| 0x80, 0x03, KEYBOARD_SIZE, 0, 1]

/-! ## Register bit numbers

`kbd.c` takes these names from the device header pulled in by `<avr/io.h>`; the numbers are
those of the USB controller of the ATmega-U4 / AT90USB parts. -/

/-- `UDINT` bit: start of frame. -/
def SOFI : Nat := 2
/-- `UDINT` bit: end of reset. -/
def EORSTI : Nat := 3
/-- `UEINTX` bit: transmitter ready (IN bank free). -/
def TXINI : Nat := 0
/-- `UEINTX` bit: OUT data received. -/
def RXOUTI : Nat := 2
/-- `UEINTX` bit: SETUP received. -/
def RXSTPI : Nat := 3
/-- `UEINTX` bit: read/write allowed. -/
def RWAL : Nat := 5
/-- `UECONX` bit: endpoint enable. -/
def EPEN : Nat := 0
/-- `UECONX` bit: clear the STALL request. -/
def STALLRQC : Nat := 4
/-- `UECONX` bit: STALL request. -/
def STALLRQ : Nat := 5
/-- `UEIENX` bit: enable the SETUP-received interrupt. -/
def RXSTPE : Nat := 3
/-- `UDADDR` bit: address enable. -/
def ADDEN : Nat := 7
def EPRST0 : Nat := 0
def EPRST1 : Nat := 1
def EPRST2 : Nat := 2
def EPRST3 : Nat := 3
def EPRST4 : Nat := 4
def EPRST5 : Nat := 5
def EPRST6 : Nat := 6

/-- C's `~x` stored into an 8-bit register. -/
def not8 (x : Nat) : Nat := 255 ^^^ (x % 256)

/-! ## State -/

/-- The `static volatile` variables of `kbd.c` (the spec's Device State). -/
structure DeviceState where
  current_configuration : Nat
  keyboard_modifier_keys : Nat
  keyboard_keys : List Nat
  keyboard_idle_config : Nat
  keyboard_idle_count : Nat
  keyboard_protocol : Nat
  keyboard_leds : Nat
  deriving DecidableEq, Repr

/-- A write to one of the registers that are not plain storage. -/
inductive Ev where
  /-- `UEDATX = v` while `UENUM = ep`: one byte pushed into that endpoint's FIFO. -/
  | UEDATX (ep v : Nat)
  /-- `UEINTX = v` while `UENUM = ep`. -/
  | UEINTX (ep v : Nat)
  /-- `UERST = v`. -/
  | UERST (v : Nat)
  deriving DecidableEq, Repr

structure State where
  dev : DeviceState
  /-- The `static uint8_t div4` of `ISR(USB_GEN_vect)`. -/
  div4 : Nat
  UDINT : Nat
  UDADDR : Nat
  UENUM : Nat
  UECONX : Nat → Nat
  UECFG0X : Nat → Nat
  UECFG1X : Nat → Nat
  UEIENX : Nat → Nat
  log : List Ev
  ueintxIn : List Nat
  ueintxIdle : Nat
  uedatxIn : List Nat

/-- The initialisers of the static variables, on a controller with all registers clear. -/
def powerOn : State where
  dev := { current_configuration := 0, keyboard_modifier_keys := 0,
           keyboard_keys := [0, 0, 0, 0, 0, 0], keyboard_idle_config := 125,
           keyboard_idle_count := 0, keyboard_protocol := 1, keyboard_leds := 0 }
  div4 := 0
  UDINT := 0
  UDADDR := 0
  UENUM := 0
  UECONX := fun _ => 0
  UECFG0X := fun _ => 0
  UECFG1X := fun _ => 0
  UEIENX := fun _ => 0
  log := []
  ueintxIn := []
  ueintxIdle := 0
  uedatxIn := []

/-! ## Register accesses -/

def wrUENUM (v : Nat) (s : State) : State := { s with UENUM := v % 256 }

def wrUECONX (v : Nat) (s : State) : State :=
  { s with UECONX := Function.update s.UECONX s.UENUM (v % 256) }

def wrUECFG0X (v : Nat) (s : State) : State :=
  { s with UECFG0X := Function.update s.UECFG0X s.UENUM (v % 256) }

def wrUECFG1X (v : Nat) (s : State) : State :=
  { s with UECFG1X := Function.update s.UECFG1X s.UENUM (v % 256) }

def wrUEIENX (v : Nat) (s : State) : State :=
  { s with UEIENX := Function.update s.UEIENX s.UENUM (v % 256) }

def wrUEDATX (v : Nat) (s : State) : State :=
  { s with log := s.log ++ [Ev.UEDATX s.UENUM (v % 256)] }

def wrUEINTX (v : Nat) (s : State) : State :=
  { s with log := s.log ++ [Ev.UEINTX s.UENUM (v % 256)] }

def wrUERST (v : Nat) (s : State) : State :=
  { s with log := s.log ++ [Ev.UERST (v % 256)] }

def rdUEINTX (s : State) : Nat × State :=
  match s.ueintxIn with
  | [] => (s.ueintxIdle % 256, s)
  | v :: rest => (v % 256, { s with ueintxIn := rest })

def rdUEDATX (s : State) : Nat × State :=
  match s.uedatxIn with
  | [] => (0, s)
  | v :: rest => (v % 256, { s with uedatxIn := rest })

/-- The reads of `while ((UEINTX & mask) == 0);` over a script: what is left of the script
once a read shows the flag, `none` if no read of the script does. -/
def pollUntil (mask : Nat) : List Nat → Option (List Nat)
  | [] => none
  | v :: rest => if (v % 256) &&& mask ≠ 0 then some rest else pollUntil mask rest

/-- The loop `while ((UEINTX & mask) == 0);`. -/
def waitUEINTX (mask : Nat) (s : State) : Option State :=
  match pollUntil mask s.ueintxIn with
  | some rest => some { s with ueintxIn := rest }
  | none => if (s.ueintxIdle % 256) &&& mask ≠ 0 then some { s with ueintxIn := [] } else none

/-- The statement `UEINTX &= ~(1<<TXINI);`. -/
def clearTXINI (s : State) : State :=
  let r := rdUEINTX s
  wrUEINTX (r.1 &&& not8 (1 <<< TXINI)) r.2

/-- The loop `for (i = 0; i < n; i++) UEDATX = tbl[p + i];`. -/
def writeBytes (tbl : List Nat) (p : Nat) : Nat → State → State
  | 0, s => s
  | n + 1, s => writeBytes tbl (p + 1) n (wrUEDATX (tbl.getD p 0) s)

/-- The eight writes of a keyboard report: modifier, 0, `keyboard_keys[0..5]`. -/
def writeReport (s : State) : State :=
  let s := wrUEDATX s.dev.keyboard_modifier_keys s
  let s := wrUEDATX 0 s
  writeBytes s.dev.keyboard_keys 0 6 s

/-! ## `ISR(USB_GEN_vect)` -/

def USB_GEN_vect (s : State) : State :=
  let intbits := s.UDINT % 256
  let s : State := { s with UDINT := 0 }
  let s : State :=
    if intbits &&& (1 <<< EORSTI) ≠ 0 then
      let s := wrUENUM 0 s
      let s := wrUECONX 1 s
      let s := wrUECFG0X EP_TYPE_CONTROL s
      let s := wrUECFG1X (EP_SIZE ENDPOINT0_SIZE ||| EP_SINGLE_BUFFER) s
      let s := wrUEIENX (1 <<< RXSTPE) s
      { s with dev := { s.dev with current_configuration := 0 } }
    else s
  if intbits &&& (1 <<< SOFI) ≠ 0 ∧ s.dev.current_configuration > 0 then
    if s.dev.current_configuration > 0 then
      let s : State := { s with div4 := (s.div4 + 1) % 256 }
      if s.div4 &&& 3 = 0 then
        let s := wrUENUM KEYBOARD_ENDPOINT s
        let r := rdUEINTX s
        let s : State := r.2
        if r.1 &&& (1 <<< RWAL) ≠ 0 then
          let s : State := { s with dev := { s.dev with
            keyboard_idle_count := (s.dev.keyboard_idle_count + 1) % 256 } }
          if s.dev.keyboard_idle_count = s.dev.keyboard_idle_config then
            let s : State := { s with dev := { s.dev with keyboard_idle_count := 0 } }
            let s := writeReport s
            wrUEINTX 0x3A s
          else s
        else s
      else s
    else s
  else s

/-! ## `ISR(USB_COM_vect)` -/

set_option linter.unusedVariables false in
/-- The loop `while (left > 0) { ... }` that streams a descriptor: `tbl` and `p` are the
table and the offset in it that the pointer `p` of the source stands at. -/
def streamLoop (tbl : List Nat) (p left : Nat) (s : State) : Option State :=
  if h : left > 0 then
    match waitUEINTX (1 <<< TXINI) s with
    | none => none
    | some s =>
      let n := MIN left ENDPOINT0_SIZE
      let s := writeBytes tbl p n s
      let s := clearTXINI s
      streamLoop tbl (p + n) (left - n) s
  else some s
termination_by left
decreasing_by
  simp only [MIN, ENDPOINT0_SIZE]
  split <;> omega

/-- How control leaves the body of `if (intbits & (1<<RXSTPI)) { ... }`: by one of its
`return` statements, or by falling out of it to the last statement of the handler. -/
inductive Exit where
  | returned (s : State)
  | fellThrough (s : State)

/-- The body of `if (intbits & (1<<RXSTPI)) { ... }` after the SETUP packet has been read
and acknowledged. -/
def dispatch (bmRequestType bRequest wValue wIndex wLength : Nat) (s : State) :
    Option Exit :=
  if bRequest = GET_DESCRIPTOR then
    if wValue = 0x0100 ∧ wIndex = 0x0000 then
      (streamLoop device_descriptor 0 (MIN wLength device_descriptor.length) s).map
        Exit.returned
    else if wValue = 0x0200 ∧ wIndex = 0x0000 then
      (streamLoop configuration_descriptor 0
        (MIN wLength configuration_descriptor.length) s).map Exit.returned
    else if wValue = 0x2200 ∧ wIndex = 0x0000 then
      (streamLoop keyboard_hid_report_desc 0
        (MIN wLength keyboard_hid_report_desc.length) s).map Exit.returned
    else if wValue = 0x2100 ∧ wIndex = 0x0000 then
      (streamLoop configuration_descriptor KEYBOARD_HID_DESC_OFFSET (MIN wLength 9) s).map
        Exit.returned
    else
      some (Exit.returned (wrUECONX ((1 <<< STALLRQ) ||| (1 <<< EPEN)) s))
  else if bRequest = SET_ADDRESS then
    let s := clearTXINI s
    match waitUEINTX (1 <<< TXINI) s with
    | none => none
    | some s => some (Exit.returned { s with UDADDR := (wValue ||| (1 <<< ADDEN)) % 256 })
  else if bRequest = SET_CONFIGURATION ∧ bmRequestType = 0 then
    let s : State := { s with dev := { s.dev with current_configuration := wValue % 256 } }
    let s := clearTXINI s
    let s := wrUENUM 1 s
    let s := wrUECONX 0 s
    let s := wrUENUM 2 s
    let s := wrUECONX 0 s
    let s := wrUENUM 3 s
    let s := wrUECONX 1 s
    let s := wrUECFG0X EP_TYPE_INTERRUPT_IN s
    let s := wrUECFG1X (EP_SIZE KEYBOARD_SIZE ||| KEYBOARD_BUFFER) s
    let s := wrUENUM 4 s
    let s := wrUECONX 0 s
    let s := wrUERST ((0 <<< EPRST6) ||| (0 <<< EPRST5) ||| (1 <<< EPRST4) ||| (1 <<< EPRST3)
      ||| (1 <<< EPRST2) ||| (1 <<< EPRST1) ||| (0 <<< EPRST0)) s
    let s := wrUERST 0 s
    some (Exit.returned s)
  else if bRequest = GET_CONFIGURATION ∧ bmRequestType = 0x80 then
    match waitUEINTX (1 <<< TXINI) s with
    | none => none
    | some s =>
      let s := wrUEDATX s.dev.current_configuration s
      some (Exit.returned (clearTXINI s))
  else if bRequest = GET_STATUS then
    match waitUEINTX (1 <<< TXINI) s with
    | none => none
    | some s =>
      let s : State :=
        if bmRequestType = 0x82 then
          let s := wrUENUM wIndex s
          let halted : Bool := decide (s.UECONX s.UENUM &&& (1 <<< STALLRQ) ≠ 0)
          let s := wrUEDATX (if halted then 1 else 0) s
          wrUEDATX 0 s
        else
          let s := wrUEDATX 0 s
          wrUEDATX 0 s
      some (Exit.returned (wrUEINTX (not8 (1 <<< TXINI)) s))
  else if (bRequest = CLEAR_FEATURE ∨ bRequest = SET_FEATURE) ∧ bmRequestType = 0x02
      ∧ wValue = 0 then
    let i := (wIndex &&& 0x007f) % 256
    if i ≥ 1 ∧ i ≤ 4 then
      let s := wrUEINTX (not8 (1 <<< TXINI)) s
      let s := wrUENUM i s
      if bRequest = SET_FEATURE then
        some (Exit.returned (wrUECONX ((1 <<< STALLRQ) ||| (1 <<< EPEN)) s))
      else
        let s := wrUECONX ((1 <<< STALLRQC) ||| (1 <<< EPEN)) s
        let s := wrUERST (1 <<< i) s
        let s := wrUERST 0 s
        some (Exit.returned s)
    else some (Exit.fellThrough s)
  else if wIndex = KEYBOARD_INTERFACE then
    if bmRequestType = 0xA1 then
      if bRequest = HID_GET_REPORT then
        match waitUEINTX (1 <<< TXINI) s with
        | none => none
        | some s =>
          let s := writeReport s
          some (Exit.returned (wrUEINTX (not8 (1 <<< TXINI)) s))
      else if bRequest = HID_GET_IDLE then
        match waitUEINTX (1 <<< TXINI) s with
        | none => none
        | some s =>
          let s := wrUEDATX s.dev.keyboard_idle_config s
          some (Exit.returned (wrUEINTX (not8 (1 <<< TXINI)) s))
      else if bRequest = HID_GET_PROTOCOL then
        match waitUEINTX (1 <<< TXINI) s with
        | none => none
        | some s =>
          let s := wrUEDATX s.dev.keyboard_protocol s
          some (Exit.returned (wrUEINTX (not8 (1 <<< TXINI)) s))
      else some (Exit.fellThrough s)
    else if bmRequestType = 0x21 then
      if bRequest = HID_SET_REPORT then
        match waitUEINTX (1 <<< RXOUTI) s with
        | none => none
        | some s =>
          let r := rdUEDATX s
          let s : State := { r.2 with dev := { r.2.dev with keyboard_leds := r.1 } }
          let s := wrUEINTX (not8 (1 <<< RXOUTI)) s
          some (Exit.returned (wrUEINTX (not8 (1 <<< TXINI)) s))
      else if bRequest = HID_SET_IDLE then
        let s : State := { s with dev := { s.dev with
          keyboard_idle_config := (wValue >>> 8) % 256, keyboard_idle_count := 0 } }
        some (Exit.returned (wrUEINTX (not8 (1 <<< TXINI)) s))
      else if bRequest = HID_SET_PROTOCOL then
        let s : State := { s with dev := { s.dev with keyboard_protocol := wValue % 256 } }
        some (Exit.returned (wrUEINTX (not8 (1 <<< TXINI)) s))
      else some (Exit.fellThrough s)
    else some (Exit.fellThrough s)
  else some (Exit.fellThrough s)

/-- The end of `ISR(USB_COM_vect)`: a `return` inside the body leaves the handler, anything
else runs into its last statement `UECONX = ((1<<STALLRQ) | (1<<EPEN));`. -/
def leave : Option Exit → Option State
  | none => none
  | some (Exit.returned s) => some s
  | some (Exit.fellThrough s) => some (wrUECONX ((1 <<< STALLRQ) ||| (1 <<< EPEN)) s)

def USB_COM_vect (s : State) : Option State :=
  let s := wrUENUM 0 s
  let r := rdUEINTX s
  let intbits := r.1
  let s := r.2
  if intbits &&& (1 <<< RXSTPI) ≠ 0 then
    let r := rdUEDATX s
    let bmRequestType := r.1
    let r := rdUEDATX r.2
    let bRequest := r.1
    let r := rdUEDATX r.2
    let wValue := r.1
    let r := rdUEDATX r.2
    let wValue := (wValue ||| (r.1 <<< 8)) % 65536
    let r := rdUEDATX r.2
    let wIndex := r.1
    let r := rdUEDATX r.2
    let wIndex := (wIndex ||| (r.1 <<< 8)) % 65536
    let r := rdUEDATX r.2
    let wLength := r.1
    let r := rdUEDATX r.2
    let wLength := (wLength ||| (r.1 <<< 8)) % 65536
    let s := wrUEINTX (not8 ((1 <<< RXSTPI) ||| (1 <<< RXOUTI) ||| (1 <<< TXINI))) r.2
    leave (dispatch bmRequestType bRequest wValue wIndex wLength s)
  else
    some (wrUECONX ((1 <<< STALLRQ) ||| (1 <<< EPEN)) s)

/-! ## Observations on the log and on the input -/

/-- A SETUP packet. -/
structure Setup where
  bmRequestType : Nat
  bRequest : Nat
  wValue : Nat
  wIndex : Nat
  wLength : Nat
  deriving DecidableEq, Repr

/-- The fields of a SETUP packet fit their widths. -/
def Setup.wf (p : Setup) : Prop :=
  p.bmRequestType < 256 ∧ p.bRequest < 256 ∧ p.wValue < 65536 ∧ p.wIndex < 65536
    ∧ p.wLength < 65536

instance (p : Setup) : Decidable p.wf := by unfold Setup.wf; infer_instance

/-- The eight bytes of a SETUP packet in the order the handler reads them from the FIFO
(16-bit fields little-endian). -/
def Setup.bytes (p : Setup) : List Nat :=
  [p.bmRequestType, p.bRequest, p.wValue % 256, p.wValue / 256, p.wIndex % 256,
   p.wIndex / 256, p.wLength % 256, p.wLength / 256]

/-- The bytes written to `UEDATX` while endpoint `ep` was selected. -/
def txBytes (ep : Nat) : List Ev → List Nat
  | [] => []
  | Ev.UEDATX e v :: l => if e = ep then v :: txBytes ep l else txBytes ep l
  | _ :: l => txBytes ep l

/-- The packets handed to the controller on endpoint `ep`: a write to `UEINTX` of that
endpoint with the `TXINI` bit clear releases the bytes written to its FIFO since the previous
such write.  `cur` holds the bytes written and not yet released. -/
def packetsFrom (ep : Nat) : List Ev → List Nat → List (List Nat)
  | [], _ => []
  | Ev.UEDATX e v :: l, cur =>
      if e = ep then packetsFrom ep l (cur ++ [v]) else packetsFrom ep l cur
  | Ev.UEINTX e v :: l, cur =>
      if e = ep ∧ v &&& (1 <<< TXINI) = 0 then cur :: packetsFrom ep l []
      else packetsFrom ep l cur
  | Ev.UERST _ :: l, cur => packetsFrom ep l cur

def packets (ep : Nat) (l : List Ev) : List (List Nat) := packetsFrom ep l []

/-- The state in which the request is dispatched: endpoint 0 selected, the read of `UEINTX`
and the eight bytes of the packet consumed, the SETUP acknowledged. -/
def afterSetup (s : State) (rest : List Nat) : State :=
  { s with UENUM := 0, ueintxIn := s.ueintxIn.tail, uedatxIn := rest,
           log := s.log ++ [Ev.UEINTX 0 0xF2] }

/-- The state when a later interrupt is taken: what the controller presents on reads of
`UEINTX` and `UEDATX` is given anew, everything else is as the previous handler left it. -/
def State.arrive (s : State) (ueintx : List Nat) (idle : Nat) (uedatx : List Nat) : State :=
  { s with ueintxIn := ueintx, ueintxIdle := idle, uedatxIn := uedatx }

/-- The value of the first read of `UEINTX` under a script and its idle value. -/
def headRead (script : List Nat) (idle : Nat) : Nat :=
  match script with
  | [] => idle % 256
  | v :: _ => v % 256

/-- The value the next read of `UEINTX` returns. -/
def nextUEINTX (s : State) : Nat := headRead s.ueintxIn s.ueintxIdle

/-- The rows of the dispatch table of the specification, by the guards it lists. -/
def matchesRow (p : Setup) : Prop :=
  (p.bRequest = GET_DESCRIPTOR ∧ p.wIndex = 0 ∧
    (p.wValue = 0x0100 ∨ p.wValue = 0x0200 ∨ p.wValue = 0x2200 ∨ p.wValue = 0x2100)) ∨
  p.bRequest = SET_ADDRESS ∨
  (p.bRequest = SET_CONFIGURATION ∧ p.bmRequestType = 0) ∨
  (p.bRequest = GET_CONFIGURATION ∧ p.bmRequestType = 0x80) ∨
  p.bRequest = GET_STATUS ∨
  ((p.bRequest = CLEAR_FEATURE ∨ p.bRequest = SET_FEATURE) ∧ p.bmRequestType = 0x02 ∧
    p.wValue = 0 ∧ 1 ≤ p.wIndex &&& 0x7f ∧ p.wIndex &&& 0x7f ≤ 4) ∨
  (p.wIndex = 0 ∧
    ((p.bmRequestType = 0xA1 ∧
        (p.bRequest = HID_GET_REPORT ∨ p.bRequest = HID_GET_IDLE ∨
          p.bRequest = HID_GET_PROTOCOL)) ∨
     (p.bmRequestType = 0x21 ∧
        (p.bRequest = HID_SET_REPORT ∨ p.bRequest = HID_SET_IDLE ∨
          p.bRequest = HID_SET_PROTOCOL))))

instance (p : Setup) : Decidable (matchesRow p) := by unfold matchesRow; infer_instance

/-- One run of `ISR(USB_GEN_vect)` with the value `u` in `UDINT`. -/
def genEvent (u : Nat) (s : State) : State := USB_GEN_vect { s with UDINT := u }

/-- Successive runs of `ISR(USB_GEN_vect)`, one for each value of `UDINT` in the list. -/
def genRun : List Nat → State → State
  | [], s => s
  | u :: us, s => genRun us (genEvent u s)

/-- A value of `UDINT` that signals a start of frame and no end of reset. -/
def isSOF (u : Nat) : Prop :=
  (u % 256) &&& (1 <<< SOFI) ≠ 0 ∧ (u % 256) &&& (1 <<< EORSTI) = 0

instance (u : Nat) : Decidable (isSOF u) := by unfold isSOF; infer_instance

/-- The register writes of one report flush: modifier, 0, six keycodes into the FIFO of
the keyboard endpoint, then `UEINTX = 0x3A`. -/
def reportEvents (m : Nat) (keys : List Nat) : List Ev :=
  [Ev.UEDATX KEYBOARD_ENDPOINT m, Ev.UEDATX KEYBOARD_ENDPOINT 0] ++
    keys.map (Ev.UEDATX KEYBOARD_ENDPOINT) ++ [Ev.UEINTX KEYBOARD_ENDPOINT 0x3A]

/-- The position of a state in the idle period, counted in start-of-frame events. -/
def tick (s : State) : Nat := s.div4 % 4 + 4 * s.dev.keyboard_idle_count

/-- The number of counted quarter-frames after which `idle_count` meets `idle_config = k`:
`k` itself, and 256 (the wrap of the 8-bit counter) for `k = 0`. -/
def period (k : Nat) : Nat := if k = 0 then 256 else k

/-- A configured state with idle rate `k`, modifier `m` and keycodes `keys`, whose idle
counter is below its period, and in which every coming read of `UEINTX` shows `RWAL`. -/
def Idling (k m : Nat) (keys : List Nat) (s : State) : Prop :=
  0 < s.dev.current_configuration ∧ s.dev.keyboard_idle_config = k ∧
  s.dev.keyboard_modifier_keys = m ∧ s.dev.keyboard_keys = keys ∧
  s.dev.keyboard_idle_count < period k ∧
  (∀ v ∈ s.ueintxIn, (v % 256) &&& (1 <<< RWAL) ≠ 0) ∧
  (s.ueintxIdle % 256) &&& (1 <<< RWAL) ≠ 0

/-- A configured state right after `SET_IDLE` with idle rate 0, the keyboard endpoint
always writable (`UEINTX` reads as `1<<RWAL`). -/
def idleZero : State :=
  { powerOn with
    dev := { powerOn.dev with current_configuration := 1, keyboard_idle_config := 0 },
    ueintxIdle := 1 <<< RWAL }

/-- A configured state with idle rate 1 (a report every 4 frames), the keyboard endpoint
always writable. -/
def idleOne : State :=
  { powerOn with
    dev := { powerOn.dev with current_configuration := 1, keyboard_idle_config := 1 },
    ueintxIdle := 1 <<< RWAL }

/-! ## Effects on the Device State, and runs of interrupts -/

/-- The state in which control leaves the request dispatch. -/
def Exit.state : Exit → State
  | Exit.returned s => s
  | Exit.fellThrough s => s

/-- The Device State a request leaves behind: `SET_CONFIGURATION` stores the low byte of
`wValue`, `HID SET_REPORT` the byte `led` received, `HID SET_IDLE` the high byte of `wValue`
and a zero count, `HID SET_PROTOCOL` the low byte of `wValue`; nothing else stores. -/
def devAfter (ty req v i : Nat) (d : DeviceState) (led : Nat) : DeviceState :=
  if req = SET_CONFIGURATION ∧ ty = 0 then { d with current_configuration := v % 256 }
  else if ty = 0x21 ∧ i = 0 ∧ req = HID_SET_REPORT then { d with keyboard_leds := led }
  else if ty = 0x21 ∧ i = 0 ∧ req = HID_SET_IDLE then
    { d with keyboard_idle_config := (v >>> 8) % 256, keyboard_idle_count := 0 }
  else if ty = 0x21 ∧ i = 0 ∧ req = HID_SET_PROTOCOL then
    { d with keyboard_protocol := v % 256 }
  else d

/-- An interrupt together with what the controller presents while it is handled: a general
USB interrupt with the value of `UDINT` (bus reset, start of frame), or a control-endpoint
interrupt for the SETUP packet `p`, `flags` being the first value read from `UEINTX` and
`data` the bytes of the data stage. -/
inductive Irq where
  | gen (udint : Nat) (ueintx : List Nat) (idle : Nat)
  | setup (p : Setup) (flags : Nat) (ueintx : List Nat) (idle : Nat) (data : List Nat)

/-- A SETUP interrupt carries a well-formed packet and shows `RXSTPI`. -/
def Irq.wf : Irq → Prop
  | Irq.gen _ _ _ => True
  | Irq.setup p flags _ _ _ => p.wf ∧ (flags % 256) &&& (1 <<< RXSTPI) ≠ 0

instance (e : Irq) : Decidable e.wf := by
  cases e <;> unfold Irq.wf <;> infer_instance

/-- The handler run for an interrupt. -/
def Irq.handle : Irq → State → Option State
  | Irq.gen u fl idle, s =>
      some (USB_GEN_vect { s with UDINT := u, ueintxIn := fl, ueintxIdle := idle })
  | Irq.setup p flags fl idle data, s =>
      USB_COM_vect (s.arrive (flags :: fl) idle (p.bytes ++ data))

/-- The handlers run for a sequence of interrupts; `none` if one of them does not return. -/
def handleAll : List Irq → State → Option State
  | [], s => some s
  | e :: es, s => (e.handle s).bind (handleAll es)

/-- The idle counter is below a nonzero idle rate, both being bytes. -/
def IdleInv (d : DeviceState) : Prop :=
  d.keyboard_idle_config < 256 ∧ d.keyboard_idle_count < 256 ∧
  (0 < d.keyboard_idle_config → d.keyboard_idle_count < d.keyboard_idle_config)

/-! ## Reading the descriptor tables -/

/-- A walk over concatenated descriptors by their `bLength` bytes: the
(`bDescriptorType`, `bLength`) pairs met, `none` if a length is below 2 or runs past the
end.  `fuel` bounds the number of descriptors. -/
def walkDescriptors : Nat → List Nat → Option (List (Nat × Nat))
  | _, [] => some []
  | 0, _ :: _ => none
  | fuel + 1, len :: rest =>
      if len < 2 ∨ (len :: rest).length < len then none
      else (walkDescriptors fuel ((len :: rest).drop len)).map (fun l => (rest.headD 0, len) :: l)

/-- A data field declared by an Input or Output item of a HID report descriptor, with the
global and local items in force. -/
structure HidField where
  output : Bool
  flags : Nat
  usagePage : Nat
  usageMin : Nat
  usageMax : Nat
  logicalMin : Nat
  logicalMax : Nat
  reportSize : Nat
  reportCount : Nat
  deriving DecidableEq, Repr

/-- The item state table of a HID report descriptor parser: the global items, the local
usage range, the depth of open collections. -/
structure HidItems where
  usagePage : Nat
  logicalMin : Nat
  logicalMax : Nat
  reportSize : Nat
  reportCount : Nat
  usageMin : Nat
  usageMax : Nat
  depth : Nat
  deriving DecidableEq, Repr

/-- The little-endian value of the data bytes of a short item. -/
def itemData : List Nat → Nat
  | [] => 0
  | b :: bs => b + 256 * itemData bs

/-- A parser of HID short items (HID 1.11, 6.2.2): the prefix byte holds the data size in
bits 0..1 (0, 1, 2 or 4 bytes), the type in bits 2..3 (0 main, 1 global, 2 local) and the
tag in bits 4..7.  Input (main tag 8) and Output (main tag 9) items yield a field and clear
the local items; the result is `none` on a truncated item, an item not handled here, or
unbalanced collections. -/
def parseHid : Nat → List Nat → HidItems → Option (List HidField)
  | _, [], st => if st.depth = 0 then some [] else none
  | 0, _ :: _, _ => none
  | fuel + 1, b :: rest, st =>
      let size := if b &&& 3 = 3 then 4 else b &&& 3
      let ty := (b >>> 2) &&& 3
      let tag := b >>> 4
      if rest.length < size then none
      else
        let v := itemData (rest.take size)
        let rest := rest.drop size
        if ty = 1 then
          if tag = 0 then parseHid fuel rest { st with usagePage := v }
          else if tag = 1 then parseHid fuel rest { st with logicalMin := v }
          else if tag = 2 then parseHid fuel rest { st with logicalMax := v }
          else if tag = 7 then parseHid fuel rest { st with reportSize := v }
          else if tag = 9 then parseHid fuel rest { st with reportCount := v }
          else none
        else if ty = 2 then
          if tag = 0 then parseHid fuel rest st
          else if tag = 1 then parseHid fuel rest { st with usageMin := v }
          else if tag = 2 then parseHid fuel rest { st with usageMax := v }
          else none
        else if ty = 0 then
          if tag = 8 ∨ tag = 9 then
            (parseHid fuel rest { st with usageMin := 0, usageMax := 0 }).map
              (fun l => { output := decide (tag = 9), flags := v, usagePage := st.usagePage,
                          usageMin := st.usageMin, usageMax := st.usageMax,
                          logicalMin := st.logicalMin, logicalMax := st.logicalMax,
                          reportSize := st.reportSize, reportCount := st.reportCount } :: l)
          else if tag = 10 then
            parseHid fuel rest { st with depth := st.depth + 1, usageMin := 0, usageMax := 0 }
          else if tag = 12 then
            if st.depth = 0 then none
            else parseHid fuel rest { st with depth := st.depth - 1, usageMin := 0,
                                              usageMax := 0 }
          else none
        else none

/-- The number of report bits the fields of one direction take. -/
def fieldBits (output : Bool) (fs : List HidField) : Nat :=
  ((fs.filter (fun f => f.output = output)).map (fun f => f.reportSize * f.reportCount)).sum

/-! ## The endpoint configuration table, read as the specification describes it -/

/-- Programming of `n` endpoints from number `i` on out of a table that holds, per
endpoint, an enable byte followed (only if enabled) by a type byte and a size/buffering
byte: select the endpoint, store the enable byte in `UECONX` and, if enabled, the two
configuration bytes in `UECFG0X` and `UECFG1X`. -/
def configFromTable : Nat → Nat → List Nat → State → State
  | 0, _, _, s => s
  | _ + 1, _, [], s => s
  | n + 1, i, en :: tbl, s =>
      let s := wrUECONX en (wrUENUM i s)
      if en ≠ 0 then
        match tbl with
        | ty :: sz :: tbl => configFromTable n (i + 1) tbl (wrUECFG1X sz (wrUECFG0X ty s))
        | _ => s
      else configFromTable n (i + 1) tbl s

/-! ## The foreground: `nes.c` and `main.c` -/

def SHIFT_PIN : Nat := 2
def LATCH_PIN : Nat := 3
def DATA_PIN : Nat := 4

/-- Port D: the output latch `PORTD`, and the values the next reads of the input register
`PIND` return (0 once they are used up). -/
structure Pins where
  PORTD : Nat
  pindIn : List Nat

/-- The function `clock_pin` of `nes.c`. -/
def clock_pin (pin : Nat) (g : Pins) : Pins :=
  let g : Pins := { g with PORTD := g.PORTD &&& not8 (1 <<< pin) }
  { g with PORTD := (g.PORTD ||| (1 <<< pin)) % 256 }

def rdPIND (g : Pins) : Nat × Pins :=
  match g.pindIn with
  | [] => (0, g)
  | v :: rest => (v % 256, { g with pindIn := rest })

/-- The loop `for (i = 0; i < 8; i++) { ... }` of `nes_poll`, with `n` iterations left. -/
def nesPollLoop : Nat → Nat → Pins → Nat × Pins
  | 0, result, g => (result, g)
  | n + 1, result, g =>
      let r := rdPIND g
      let bit : Bool := decide (r.1 &&& (1 <<< DATA_PIN) ≠ 0)
      let result := (result <<< 1) % 256
      let result := result ||| (if bit then 0x00 else 0x01)
      nesPollLoop n result (clock_pin SHIFT_PIN r.2)

/-- The function `nes_poll` of `nes.c`. -/
def nes_poll (g : Pins) : Nat × Pins :=
  nesPollLoop 8 0x00 (clock_pin LATCH_PIN g)

/-- The loop `for (i = 0; i < 8; i++) { if ((state & 0x01) != 0) bit = !bit; }` of `main`,
with `n` iterations left. -/
def parityLoop (state : Nat) : Nat → Bool → Bool
  | 0, bit => bit
  | n + 1, bit => parityLoop state n (if state &&& 0x01 ≠ 0 then !bit else bit)

/-- The flag `bit` of `main` after its loop, for the polled byte `state`. -/
def mainBit (state : Nat) : Bool := parityLoop state 8 false

/-- One pass through the body of `for (;;)` in `main` (the delay apart). -/
def mainIteration (g : Pins) : Pins :=
  let r := nes_poll g
  let state := r.1
  let g := r.2
  if mainBit state then { g with PORTD := g.PORTD &&& not8 (1 <<< 5) }
  else { g with PORTD := (g.PORTD ||| (1 <<< 5)) % 256 }

/-! ## Lemmas: reading the SETUP packet -/

theorem word_of_bytes (v : Nat) (h : v < 65536) :
    (v % 256 % 256 ||| (v / 256 % 256) <<< 8) % 65536 = v := by
  have h1 : v / 256 % 256 = v / 256 := Nat.mod_eq_of_lt (by omega)
  have h2 : 2 ^ 8 * (v / 256) ||| v % 256 = 2 ^ 8 * (v / 256) + v % 256 :=
    (Nat.mul_add_lt_is_or (by omega) (v / 256)).symm
  rw [Nat.mod_mod, h1, Nat.lor_comm, Nat.shiftLeft_eq, Nat.mul_comm, h2]
  omega

theorem rdUEINTX_tail (s : State) : (rdUEINTX s).2 = { s with ueintxIn := s.ueintxIn.tail } := by
  unfold rdUEINTX
  cases h : s.ueintxIn <;> simp
  cases s; simp_all

theorem USB_COM_vect_setup (s : State) (p : Setup) (rest : List Nat) (hp : p.wf)
    (hin : s.uedatxIn = p.bytes ++ rest)
    (hflag : nextUEINTX s &&& (1 <<< RXSTPI) ≠ 0) :
    USB_COM_vect s =
      leave (dispatch p.bmRequestType p.bRequest p.wValue p.wIndex p.wLength
        (afterSetup s rest)) := by
  obtain ⟨h1, h2, h3, h4, h5⟩ := hp
  have hf : (rdUEINTX (wrUENUM 0 s)).1 = nextUEINTX s := by
    simp [rdUEINTX, wrUENUM, nextUEINTX, headRead]; cases s.ueintxIn <;> simp
  unfold USB_COM_vect
  simp only [hf, hflag, ne_eq, not_false_eq_true, if_true]
  simp only [rdUEINTX_tail, rdUEDATX, wrUENUM, hin, Setup.bytes, List.cons_append,
    List.nil_append, word_of_bytes _ h3, word_of_bytes _ h4, word_of_bytes _ h5,
    Nat.mod_eq_of_lt h1, Nat.mod_eq_of_lt h2]
  rfl

/-! ## Lemmas: busy-wait loops -/

theorem waitUEINTX_ready (mask : Nat) (s : State) (h : (s.ueintxIdle % 256) &&& mask ≠ 0) :
    ∃ r, waitUEINTX mask s = some { s with ueintxIn := r } := by
  unfold waitUEINTX
  cases hp : pollUntil mask s.ueintxIn with
  | none => exact ⟨[], by simp [h]⟩
  | some r => exact ⟨r, rfl⟩

theorem clearTXINI_eq (s : State) :
    clearTXINI s =
      { s with ueintxIn := s.ueintxIn.tail,
               log := s.log ++ [Ev.UEINTX s.UENUM ((nextUEINTX s &&& 254) % 256)] } := by
  have hf : (rdUEINTX s).1 = nextUEINTX s := by
    simp [rdUEINTX, nextUEINTX, headRead]; cases s.ueintxIn <;> simp
  simp [clearTXINI, rdUEINTX_tail, wrUEINTX, hf, not8, TXINI]

/-! ## Lemmas: single requests -/

theorem get_configuration_reply (t : State) (v i l : Nat) (rest : List Nat)
    (hv : v < 65536) (hi : i < 65536) (hl : l < 65536)
    (hin : t.uedatxIn = (Setup.mk 0x80 GET_CONFIGURATION v i l).bytes ++ rest)
    (hflag : nextUEINTX t &&& (1 <<< RXSTPI) ≠ 0)
    (hready : (t.ueintxIdle % 256) &&& (1 <<< TXINI) ≠ 0) :
    ∃ t' w, USB_COM_vect t = some t' ∧ t'.dev = t.dev ∧
      t'.log = t.log ++ [Ev.UEINTX 0 0xF2, Ev.UEDATX 0 (t.dev.current_configuration % 256),
        Ev.UEINTX 0 w] := by
  rw [USB_COM_vect_setup t _ rest ⟨by simp, by simp [GET_CONFIGURATION], hv, hi, hl⟩ hin hflag]
  obtain ⟨r, hr⟩ := waitUEINTX_ready (1 <<< TXINI) (afterSetup t rest) hready
  simp only [dispatch, GET_CONFIGURATION, GET_DESCRIPTOR, SET_ADDRESS, SET_CONFIGURATION]
  simp only [hr, leave, clearTXINI_eq]
  simp [afterSetup, wrUEDATX]

/-! ## Bus reset -/

/-- C3: a bus-reset event (`EORSTI` set in `UDINT`) handled by `ISR(USB_GEN_vect)` sets
`current_configuration` to 0 and leaves every other Device State field unchanged, leaves
endpoint 0 enabled (`UECONX = 1<<EPEN`) as a control endpoint of 32 bytes, single bank
(`UECFG0X = 0x00`, `UECFG1X = 0x22`), with only the SETUP-received interrupt enabled
(`UEIENX = 1<<RXSTPE`), writes nothing to a FIFO; and a `GET_CONFIGURATION` handled next
(with `TXINI` eventually set) replies the single byte 0 on endpoint 0. -/
theorem bus_reset_effect (s : State) (fl rest : List Nat) (idle v i l : Nat)
    (h : (s.UDINT % 256) &&& (1 <<< EORSTI) ≠ 0)
    (hv : v < 65536) (hi : i < 65536) (hl : l < 65536)
    (hflag : headRead fl idle &&& (1 <<< RXSTPI) ≠ 0)
    (hready : (idle % 256) &&& (1 <<< TXINI) ≠ 0) :
    (USB_GEN_vect s).dev = { s.dev with current_configuration := 0 } ∧
    (USB_GEN_vect s).UECONX 0 = 1 <<< EPEN ∧
    (USB_GEN_vect s).UECFG0X 0 = 0x00 ∧
    (USB_GEN_vect s).UECFG1X 0 = 0x22 ∧
    (USB_GEN_vect s).UEIENX 0 = 1 <<< RXSTPE ∧
    (USB_GEN_vect s).div4 = s.div4 ∧
    (USB_GEN_vect s).log = s.log ∧
    ∃ t w, USB_COM_vect ((USB_GEN_vect s).arrive fl idle
        ((Setup.mk 0x80 GET_CONFIGURATION v i l).bytes ++ rest)) = some t ∧
      t.log = s.log ++ [Ev.UEINTX 0 0xF2, Ev.UEDATX 0 0, Ev.UEINTX 0 w] := by
  have hs : USB_GEN_vect s =
      { s with UDINT := 0, UENUM := 0, UECONX := Function.update s.UECONX 0 1,
               UECFG0X := Function.update s.UECFG0X 0 0,
               UECFG1X := Function.update s.UECFG1X 0 0x22,
               UEIENX := Function.update s.UEIENX 0 8,
               dev := { s.dev with current_configuration := 0 } } := by
    simp [USB_GEN_vect, h, wrUENUM, wrUECONX, wrUECFG0X, wrUECFG1X, wrUEIENX, EP_SIZE,
      ENDPOINT0_SIZE, EP_SINGLE_BUFFER, EP_TYPE_CONTROL, RXSTPE]
  refine ⟨by rw [hs], by simp [hs, EPEN], by simp [hs], by simp [hs], by simp [hs, RXSTPE],
    by rw [hs], by rw [hs], ?_⟩
  obtain ⟨t, w, h1, _, h3⟩ := get_configuration_reply
    ((USB_GEN_vect s).arrive fl idle ((Setup.mk 0x80 GET_CONFIGURATION v i l).bytes ++ rest))
    v i l rest hv hi hl rfl hflag hready
  refine ⟨t, w, h1, ?_⟩
  rw [h3, hs]
  simp [State.arrive]

theorem bus_reset_effect_witness :
    (({ powerOn with UDINT := 8 } : State).UDINT % 256) &&& (1 <<< EORSTI) ≠ 0 ∧
    headRead [8] 1 &&& (1 <<< RXSTPI) ≠ 0 ∧
    (USB_GEN_vect { powerOn with UDINT := 8 }).UECFG1X 0 = 0x22 :=
  ⟨by decide, by decide,
    (bus_reset_effect { powerOn with UDINT := 8 } [8] [] 1 0 0 1 (by decide) (by decide)
      (by decide) (by decide) (by decide) (by decide)).2.2.2.1⟩

/-! ## Configuration and idle rate: set, then get -/

theorem set_configuration_effect (s : State) (v i l : Nat) (rest : List Nat)
    (hv : v < 65536) (hi : i < 65536) (hl : l < 65536)
    (hin : s.uedatxIn = (Setup.mk 0 SET_CONFIGURATION v i l).bytes ++ rest)
    (hflag : nextUEINTX s &&& (1 <<< RXSTPI) ≠ 0) :
    ∃ s1, USB_COM_vect s = some s1 ∧
      s1.dev = { s.dev with current_configuration := v % 256 } ∧ s1.div4 = s.div4 := by
  rw [USB_COM_vect_setup s _ rest ⟨by simp, by simp [SET_CONFIGURATION], hv, hi, hl⟩ hin hflag]
  simp [dispatch, GET_DESCRIPTOR, SET_ADDRESS, SET_CONFIGURATION, leave, clearTXINI_eq,
    wrUENUM, wrUECONX, wrUECFG0X, wrUECFG1X, wrUERST, afterSetup]

/-- C2 (amended): `SET_CONFIGURATION` (`bmRequestType = 0`, `wValue = v`) followed by
`GET_CONFIGURATION` (`bmRequestType = 0x80`, `TXINI` eventually set) makes the handler write
exactly one byte to endpoint 0, and that byte is the low byte `v % 256` of `wValue`:
`current_configuration` is a `uint8_t`. -/
theorem set_get_configuration (s : State) (v i l v2 i2 l2 idle2 : Nat)
    (rest fl2 rest2 : List Nat)
    (hv : v < 65536) (hi : i < 65536) (hl : l < 65536)
    (hv2 : v2 < 65536) (hi2 : i2 < 65536) (hl2 : l2 < 65536)
    (hin : s.uedatxIn = (Setup.mk 0 SET_CONFIGURATION v i l).bytes ++ rest)
    (hflag : nextUEINTX s &&& (1 <<< RXSTPI) ≠ 0)
    (hflag2 : headRead fl2 idle2 &&& (1 <<< RXSTPI) ≠ 0)
    (hready : (idle2 % 256) &&& (1 <<< TXINI) ≠ 0) :
    ∃ s1 s2 w, USB_COM_vect s = some s1 ∧
      USB_COM_vect (s1.arrive fl2 idle2
        ((Setup.mk 0x80 GET_CONFIGURATION v2 i2 l2).bytes ++ rest2)) = some s2 ∧
      s2.log = s1.log ++ [Ev.UEINTX 0 0xF2, Ev.UEDATX 0 (v % 256), Ev.UEINTX 0 w] := by
  obtain ⟨s1, h1, hd, _⟩ := set_configuration_effect s v i l rest hv hi hl hin hflag
  obtain ⟨s2, w, h2, _, hlog⟩ := get_configuration_reply
    (s1.arrive fl2 idle2 ((Setup.mk 0x80 GET_CONFIGURATION v2 i2 l2).bytes ++ rest2))
    v2 i2 l2 rest2 hv2 hi2 hl2 rfl hflag2 hready
  refine ⟨s1, s2, w, h1, h2, ?_⟩
  rw [hlog]
  simp [State.arrive, hd]

theorem set_get_configuration_witness :
    nextUEINTX (powerOn.arrive [8] 1 (Setup.mk 0 SET_CONFIGURATION 1 0 0).bytes) &&&
      (1 <<< RXSTPI) ≠ 0 ∧
    ∃ s1 s2 w, USB_COM_vect (powerOn.arrive [8] 1 (Setup.mk 0 SET_CONFIGURATION 1 0 0).bytes)
        = some s1 ∧
      USB_COM_vect (s1.arrive [8] 1
        ((Setup.mk 0x80 GET_CONFIGURATION 0 0 1).bytes ++ [])) = some s2 ∧
      s2.log = s1.log ++ [Ev.UEINTX 0 0xF2, Ev.UEDATX 0 (1 % 256), Ev.UEINTX 0 w] :=
  ⟨by decide, set_get_configuration
    (powerOn.arrive [8] 1 (Setup.mk 0 SET_CONFIGURATION 1 0 0).bytes) 1 0 0 0 0 1 1 [] [8] []
    (by decide) (by decide) (by decide) (by decide) (by decide) (by decide) (by simp [State.arrive])
    (by decide) (by decide) (by decide)⟩

/-- C2, as stated, fails: after `SET_CONFIGURATION` with the nonzero `wValue = 0x0100` the
byte `GET_CONFIGURATION` writes to endpoint 0 is 0, not 0x0100. -/
theorem set_get_configuration_truncates :
    ((USB_COM_vect (powerOn.arrive [8] 1 (Setup.mk 0 SET_CONFIGURATION 0x0100 0 0).bytes)).bind
      (fun s1 => (USB_COM_vect (s1.arrive [8] 1 (Setup.mk 0x80 GET_CONFIGURATION 0 0 1).bytes)).map
        (fun s2 => txBytes 0 (s2.log.drop s1.log.length)))) = some [0] ∧
    ((USB_COM_vect (powerOn.arrive [8] 1 (Setup.mk 0 SET_CONFIGURATION 0x0100 0 0).bytes)).bind
      (fun s1 => (USB_COM_vect (s1.arrive [8] 1 (Setup.mk 0x80 GET_CONFIGURATION 0 0 1).bytes)).map
        (fun s2 => txBytes 0 (s2.log.drop s1.log.length)))) ≠ some [0x0100] := by
  decide

theorem high_byte (v : Nat) (h : v < 65536) : (v >>> 8) % 256 = v >>> 8 := by
  rw [Nat.shiftRight_eq_div_pow]
  omega

theorem set_idle_effect (s : State) (v l : Nat) (rest : List Nat)
    (hv : v < 65536) (hl : l < 65536)
    (hin : s.uedatxIn = (Setup.mk 0x21 HID_SET_IDLE v 0 l).bytes ++ rest)
    (hflag : nextUEINTX s &&& (1 <<< RXSTPI) ≠ 0) :
    ∃ s1, USB_COM_vect s = some s1 ∧
      s1.dev = { s.dev with keyboard_idle_config := v >>> 8, keyboard_idle_count := 0 } ∧
      s1.div4 = s.div4 := by
  rw [USB_COM_vect_setup s _ rest ⟨by simp, by simp [HID_SET_IDLE], hv, by simp, hl⟩ hin hflag]
  simp [dispatch, GET_DESCRIPTOR, SET_ADDRESS, SET_CONFIGURATION,
    GET_CONFIGURATION, GET_STATUS, CLEAR_FEATURE, SET_FEATURE, HID_SET_IDLE, HID_SET_REPORT,
    KEYBOARD_INTERFACE, leave, wrUEINTX, afterSetup, high_byte v hv]

theorem get_idle_reply (t : State) (v l : Nat) (rest : List Nat)
    (hv : v < 65536) (hl : l < 65536)
    (hin : t.uedatxIn = (Setup.mk 0xA1 HID_GET_IDLE v 0 l).bytes ++ rest)
    (hflag : nextUEINTX t &&& (1 <<< RXSTPI) ≠ 0)
    (hready : (t.ueintxIdle % 256) &&& (1 <<< TXINI) ≠ 0) :
    ∃ t', USB_COM_vect t = some t' ∧ t'.dev = t.dev ∧
      t'.log = t.log ++ [Ev.UEINTX 0 0xF2, Ev.UEDATX 0 (t.dev.keyboard_idle_config % 256),
        Ev.UEINTX 0 0xFE] := by
  rw [USB_COM_vect_setup t _ rest ⟨by simp, by simp [HID_GET_IDLE], hv, by simp, hl⟩ hin hflag]
  obtain ⟨r, hr⟩ := waitUEINTX_ready (1 <<< TXINI) (afterSetup t rest) hready
  simp only [dispatch, GET_DESCRIPTOR, SET_ADDRESS, SET_CONFIGURATION,
    GET_CONFIGURATION, GET_STATUS, CLEAR_FEATURE, SET_FEATURE, HID_GET_IDLE, HID_GET_REPORT,
    KEYBOARD_INTERFACE]
  simp only [hr, leave]
  simp [afterSetup, wrUEDATX, wrUEINTX, not8, TXINI]

/-- C6: `HID SET_IDLE` (`bmRequestType = 0x21`, `wIndex = 0`, `wValue = v`) leaves
`idle_config = v >> 8` and `idle_count = 0` and changes no other Device State field; a
`HID GET_IDLE` (`bmRequestType = 0xA1`, `wIndex = 0`) handled next, with `TXINI` eventually
set, writes exactly the single byte `v >> 8` to endpoint 0 and releases it. -/
theorem set_get_idle (s : State) (v l v2 l2 idle2 : Nat) (rest fl2 rest2 : List Nat)
    (hv : v < 65536) (hl : l < 65536) (hv2 : v2 < 65536) (hl2 : l2 < 65536)
    (hin : s.uedatxIn = (Setup.mk 0x21 HID_SET_IDLE v 0 l).bytes ++ rest)
    (hflag : nextUEINTX s &&& (1 <<< RXSTPI) ≠ 0)
    (hflag2 : headRead fl2 idle2 &&& (1 <<< RXSTPI) ≠ 0)
    (hready : (idle2 % 256) &&& (1 <<< TXINI) ≠ 0) :
    ∃ s1 s2, USB_COM_vect s = some s1 ∧
      s1.dev = { s.dev with keyboard_idle_config := v >>> 8, keyboard_idle_count := 0 } ∧
      USB_COM_vect (s1.arrive fl2 idle2
        ((Setup.mk 0xA1 HID_GET_IDLE v2 0 l2).bytes ++ rest2)) = some s2 ∧
      s2.log = s1.log ++ [Ev.UEINTX 0 0xF2, Ev.UEDATX 0 (v >>> 8), Ev.UEINTX 0 0xFE] ∧
      s2.dev = s1.dev := by
  obtain ⟨s1, h1, hd, _⟩ := set_idle_effect s v l rest hv hl hin hflag
  obtain ⟨s2, h2, hd2, hlog⟩ := get_idle_reply
    (s1.arrive fl2 idle2 ((Setup.mk 0xA1 HID_GET_IDLE v2 0 l2).bytes ++ rest2))
    v2 l2 rest2 hv2 hl2 rfl hflag2 hready
  refine ⟨s1, s2, h1, hd, h2, ?_, hd2⟩
  rw [hlog]
  simp [State.arrive, hd, high_byte v hv]

theorem set_get_idle_witness :
    nextUEINTX (powerOn.arrive [8] 1 (Setup.mk 0x21 HID_SET_IDLE 0x7D00 0 0).bytes) &&&
      (1 <<< RXSTPI) ≠ 0 ∧
    ∃ s1 s2, USB_COM_vect (powerOn.arrive [8] 1 (Setup.mk 0x21 HID_SET_IDLE 0x7D00 0 0).bytes)
        = some s1 ∧
      s1.dev = { (powerOn.arrive [8] 1 (Setup.mk 0x21 HID_SET_IDLE 0x7D00 0 0).bytes).dev with
        keyboard_idle_config := 0x7D00 >>> 8, keyboard_idle_count := 0 } ∧
      USB_COM_vect (s1.arrive [8] 1
        ((Setup.mk 0xA1 HID_GET_IDLE 0 0 1).bytes ++ [])) = some s2 ∧
      s2.log = s1.log ++ [Ev.UEINTX 0 0xF2, Ev.UEDATX 0 (0x7D00 >>> 8), Ev.UEINTX 0 0xFE] ∧
      s2.dev = s1.dev :=
  ⟨by decide, set_get_idle
    (powerOn.arrive [8] 1 (Setup.mk 0x21 HID_SET_IDLE 0x7D00 0 0).bytes) 0x7D00 0 0 1 1 [] [8] []
    (by decide) (by decide) (by decide) (by decide) (by simp [State.arrive])
    (by decide) (by decide) (by decide)⟩

/-! ## Endpoint halt and `GET_STATUS` -/

theorem get_status_reply (t : State) (ty v i l : Nat) (rest : List Nat)
    (hty : ty < 256) (hv : v < 65536) (hi : i < 65536) (hl : l < 65536)
    (hin : t.uedatxIn = (Setup.mk ty GET_STATUS v i l).bytes ++ rest)
    (hflag : nextUEINTX t &&& (1 <<< RXSTPI) ≠ 0)
    (hready : (t.ueintxIdle % 256) &&& (1 <<< TXINI) ≠ 0) :
    ∃ t', USB_COM_vect t = some t' ∧ t'.dev = t.dev ∧ t'.UECONX = t.UECONX ∧
      t'.log = t.log ++
        (if ty = 0x82 then
          [Ev.UEINTX 0 0xF2,
           Ev.UEDATX (i % 256) (if t.UECONX (i % 256) &&& (1 <<< STALLRQ) ≠ 0 then 1 else 0),
           Ev.UEDATX (i % 256) 0, Ev.UEINTX (i % 256) 0xFE]
         else [Ev.UEINTX 0 0xF2, Ev.UEDATX 0 0, Ev.UEDATX 0 0, Ev.UEINTX 0 0xFE]) := by
  rw [USB_COM_vect_setup t _ rest ⟨hty, by simp [GET_STATUS], hv, hi, hl⟩ hin hflag]
  obtain ⟨r, hr⟩ := waitUEINTX_ready (1 <<< TXINI) (afterSetup t rest) hready
  simp only [dispatch, GET_DESCRIPTOR, SET_ADDRESS, SET_CONFIGURATION,
    GET_CONFIGURATION, GET_STATUS]
  simp only [hr, leave]
  by_cases h82 : ty = 0x82
  · by_cases hh : t.UECONX (i % 256) &&& (1 <<< STALLRQ) ≠ 0 <;>
      simp [h82, hh, afterSetup, wrUEDATX, wrUEINTX, wrUENUM, not8, TXINI]
  · simp [h82, afterSetup, wrUEDATX, wrUEINTX, wrUENUM, not8, TXINI]

theorem feature_index (e : Nat) (h1 : 1 ≤ e) (h4 : e ≤ 4) : (e &&& 0x007f) % 256 = e := by
  interval_cases e <;> rfl

theorem set_feature_effect (s : State) (e l : Nat) (rest : List Nat)
    (h1 : 1 ≤ e) (h4 : e ≤ 4) (hl : l < 65536)
    (hin : s.uedatxIn = (Setup.mk 0x02 SET_FEATURE 0 e l).bytes ++ rest)
    (hflag : nextUEINTX s &&& (1 <<< RXSTPI) ≠ 0) :
    ∃ s1, USB_COM_vect s = some s1 ∧ s1.dev = s.dev ∧
      s1.UECONX = Function.update s.UECONX e ((1 <<< STALLRQ) ||| (1 <<< EPEN)) ∧
      s1.log = s.log ++ [Ev.UEINTX 0 0xF2, Ev.UEINTX 0 0xFE] := by
  rw [USB_COM_vect_setup s _ rest ⟨by simp, by simp [SET_FEATURE], by simp, by simp; omega, hl⟩
    hin hflag]
  have he : e % 256 = e := Nat.mod_eq_of_lt (by omega)
  simp [dispatch, GET_DESCRIPTOR, SET_ADDRESS, SET_CONFIGURATION, GET_CONFIGURATION,
    GET_STATUS, CLEAR_FEATURE, SET_FEATURE, feature_index e h1 h4, h1, h4, leave, wrUEINTX,
    wrUENUM, wrUECONX, afterSetup, not8, TXINI, STALLRQ, EPEN, he]

theorem clear_feature_effect (s : State) (e l : Nat) (rest : List Nat)
    (h1 : 1 ≤ e) (h4 : e ≤ 4) (hl : l < 65536)
    (hin : s.uedatxIn = (Setup.mk 0x02 CLEAR_FEATURE 0 e l).bytes ++ rest)
    (hflag : nextUEINTX s &&& (1 <<< RXSTPI) ≠ 0) :
    ∃ s1, USB_COM_vect s = some s1 ∧ s1.dev = s.dev ∧
      s1.UECONX = Function.update s.UECONX e ((1 <<< STALLRQC) ||| (1 <<< EPEN)) ∧
      s1.log = s.log ++ [Ev.UEINTX 0 0xF2, Ev.UEINTX 0 0xFE, Ev.UERST (1 <<< e), Ev.UERST 0] := by
  rw [USB_COM_vect_setup s _ rest ⟨by simp, by simp [CLEAR_FEATURE], by simp, by simp; omega, hl⟩
    hin hflag]
  have he : e % 256 = e := Nat.mod_eq_of_lt (by omega)
  have hs : (1 <<< e) % 256 = 1 <<< e := by interval_cases e <;> rfl
  simp [dispatch, GET_DESCRIPTOR, SET_ADDRESS, SET_CONFIGURATION, GET_CONFIGURATION,
    GET_STATUS, CLEAR_FEATURE, SET_FEATURE, feature_index e h1 h4, h1, h4, leave, wrUEINTX,
    wrUENUM, wrUECONX, wrUERST, afterSetup, not8, TXINI, STALLRQC, EPEN, he, hs]

/-- C7: for an endpoint number `e` in 1..4, `SET_FEATURE` (`bmRequestType = 0x02`,
`wValue = 0`, `wIndex = e`) sets the STALL request of endpoint `e` and a following
`CLEAR_FEATURE` clears it, and `GET_STATUS` (`bmRequestType = 0x82`, `wIndex = e`) computes
the halted bit 1 after the first and 0 after the second, but it does not report it on the
control endpoint: `UENUM` is left at `e`, so after the acknowledge of the SETUP packet no
byte is written to the FIFO of endpoint 0 and no packet is released on endpoint 0; the two
status bytes are written to, and released on, endpoint `e`.  `TXINI` is assumed to become
set eventually. -/
theorem halt_status_not_sent_on_control_endpoint
    (s : State) (e l1 v2 l2 idle2 l3 idle3 v4 l4 idle4 : Nat)
    (rest1 fl2 rest2 fl3 rest3 fl4 rest4 : List Nat)
    (h1 : 1 ≤ e) (h4 : e ≤ 4) (hl1 : l1 < 65536) (hv2 : v2 < 65536) (hl2 : l2 < 65536)
    (hl3 : l3 < 65536) (hv4 : v4 < 65536) (hl4 : l4 < 65536)
    (hin : s.uedatxIn = (Setup.mk 0x02 SET_FEATURE 0 e l1).bytes ++ rest1)
    (hflag1 : nextUEINTX s &&& (1 <<< RXSTPI) ≠ 0)
    (hflag2 : headRead fl2 idle2 &&& (1 <<< RXSTPI) ≠ 0)
    (hready2 : (idle2 % 256) &&& (1 <<< TXINI) ≠ 0)
    (hflag3 : headRead fl3 idle3 &&& (1 <<< RXSTPI) ≠ 0)
    (hflag4 : headRead fl4 idle4 &&& (1 <<< RXSTPI) ≠ 0)
    (hready4 : (idle4 % 256) &&& (1 <<< TXINI) ≠ 0) :
    ∃ s1 s2 s3 s4 d2 d4, USB_COM_vect s = some s1 ∧
      s1.UECONX e &&& (1 <<< STALLRQ) ≠ 0 ∧
      USB_COM_vect (s1.arrive fl2 idle2
        ((Setup.mk 0x82 GET_STATUS v2 e l2).bytes ++ rest2)) = some s2 ∧
      s2.log = s1.log ++ Ev.UEINTX 0 0xF2 :: d2 ∧
      d2 = [Ev.UEDATX e 1, Ev.UEDATX e 0, Ev.UEINTX e 0xFE] ∧
      txBytes 0 d2 = [] ∧ packets 0 d2 = [] ∧ packets e d2 = [[1, 0]] ∧
      USB_COM_vect (s2.arrive fl3 idle3
        ((Setup.mk 0x02 CLEAR_FEATURE 0 e l3).bytes ++ rest3)) = some s3 ∧
      s3.UECONX e &&& (1 <<< STALLRQ) = 0 ∧
      USB_COM_vect (s3.arrive fl4 idle4
        ((Setup.mk 0x82 GET_STATUS v4 e l4).bytes ++ rest4)) = some s4 ∧
      s4.log = s3.log ++ Ev.UEINTX 0 0xF2 :: d4 ∧
      d4 = [Ev.UEDATX e 0, Ev.UEDATX e 0, Ev.UEINTX e 0xFE] ∧
      txBytes 0 d4 = [] ∧ packets 0 d4 = [] ∧ packets e d4 = [[0, 0]] := by
  have he : e % 256 = e := Nat.mod_eq_of_lt (by omega)
  have h0 : ¬ e = 0 := by omega
  obtain ⟨s1, r1, _, c1, _⟩ := set_feature_effect s e l1 rest1 h1 h4 hl1 hin hflag1
  obtain ⟨s2, r2, _, c2, g2⟩ := get_status_reply
    (s1.arrive fl2 idle2 ((Setup.mk 0x82 GET_STATUS v2 e l2).bytes ++ rest2))
    0x82 v2 e l2 rest2 (by decide) hv2 (by omega) hl2 rfl hflag2 hready2
  obtain ⟨s3, r3, _, c3, _⟩ := clear_feature_effect
    (s2.arrive fl3 idle3 ((Setup.mk 0x02 CLEAR_FEATURE 0 e l3).bytes ++ rest3))
    e l3 rest3 h1 h4 hl3 rfl hflag3
  obtain ⟨s4, r4, _, _, g4⟩ := get_status_reply
    (s3.arrive fl4 idle4 ((Setup.mk 0x82 GET_STATUS v4 e l4).bytes ++ rest4))
    0x82 v4 e l4 rest4 (by decide) hv4 (by omega) hl4 rfl hflag4 hready4
  refine ⟨s1, s2, s3, s4, _, _, r1, ?_, r2, ?_, rfl, ?_, ?_, ?_, r3, ?_, r4, ?_, rfl, ?_, ?_, ?_⟩
  · rw [c1]
    simp [STALLRQ, EPEN]
  · rw [g2]
    simp [State.arrive, c1, he, STALLRQ, EPEN]
  · simp [txBytes, h0]
  · simp [packets, packetsFrom, h0]
  · simp [packets, packetsFrom, TXINI]
  · rw [c3]
    simp [STALLRQ, STALLRQC, EPEN]
    decide
  · rw [g4]
    simp [State.arrive, c3, he, STALLRQ, STALLRQC, EPEN]
    decide
  · simp [txBytes, h0]
  · simp [packets, packetsFrom, h0]
  · simp [packets, packetsFrom, TXINI]

theorem halt_status_not_sent_on_control_endpoint_witness :
    nextUEINTX (powerOn.arrive [8] 1 (Setup.mk 0x02 SET_FEATURE 0 1 0).bytes) &&&
      (1 <<< RXSTPI) ≠ 0 ∧
    ∃ s1 s2 s3 s4 d2 d4,
      USB_COM_vect (powerOn.arrive [8] 1 (Setup.mk 0x02 SET_FEATURE 0 1 0).bytes) = some s1 ∧
      s1.UECONX 1 &&& (1 <<< STALLRQ) ≠ 0 ∧
      USB_COM_vect (s1.arrive [8] 1
        ((Setup.mk 0x82 GET_STATUS 0 1 2).bytes ++ [])) = some s2 ∧
      s2.log = s1.log ++ Ev.UEINTX 0 0xF2 :: d2 ∧
      d2 = [Ev.UEDATX 1 1, Ev.UEDATX 1 0, Ev.UEINTX 1 0xFE] ∧
      txBytes 0 d2 = [] ∧ packets 0 d2 = [] ∧ packets 1 d2 = [[1, 0]] ∧
      USB_COM_vect (s2.arrive [8] 1
        ((Setup.mk 0x02 CLEAR_FEATURE 0 1 0).bytes ++ [])) = some s3 ∧
      s3.UECONX 1 &&& (1 <<< STALLRQ) = 0 ∧
      USB_COM_vect (s3.arrive [8] 1
        ((Setup.mk 0x82 GET_STATUS 0 1 2).bytes ++ [])) = some s4 ∧
      s4.log = s3.log ++ Ev.UEINTX 0 0xF2 :: d4 ∧
      d4 = [Ev.UEDATX 1 0, Ev.UEDATX 1 0, Ev.UEINTX 1 0xFE] ∧
      txBytes 0 d4 = [] ∧ packets 0 d4 = [] ∧ packets 1 d4 = [[0, 0]] :=
  ⟨by decide, halt_status_not_sent_on_control_endpoint
    (powerOn.arrive [8] 1 (Setup.mk 0x02 SET_FEATURE 0 1 0).bytes) 1 0 0 2 1 0 1 0 2 1
    [] [8] [] [8] [] [8] [] (by decide) (by decide) (by decide) (by decide) (by decide)
    (by decide) (by decide) (by decide) (by simp [State.arrive]) (by decide) (by decide)
    (by decide) (by decide) (by decide) (by decide)⟩

/-- C8: at `GET_STATUS` with `bmRequestType = 0x82` and `wIndex = 3` the handler selects
endpoint 3 to read its STALL request and does not select endpoint 0 again: nothing is
written to the FIFO of endpoint 0, the two status bytes go to the FIFO of endpoint 3 and
the `UEINTX` write that releases the reply is made on endpoint 3. -/
theorem status_reply_written_to_indexed_endpoint :
    (USB_COM_vect (powerOn.arrive [8] 1 (Setup.mk 0x82 GET_STATUS 0 3 2).bytes)).map
      (fun s => (s.UENUM, txBytes 0 s.log, txBytes 3 s.log, s.log)) =
    some (3, [], [0, 0],
      [Ev.UEINTX 0 0xF2, Ev.UEDATX 3 0, Ev.UEDATX 3 0, Ev.UEINTX 3 0xFE]) := by
  decide

/-! ## Requests that are not served -/

theorem feature_index_mod (i : Nat) : (i &&& 0x007f) % 256 = i &&& 0x7f :=
  Nat.mod_eq_of_lt (Nat.lt_of_le_of_lt Nat.and_le_right (by decide))

theorem unmatched_dispatch (p : Setup) (s : State) (hno : ¬ matchesRow p) :
    ∃ s', leave (dispatch p.bmRequestType p.bRequest p.wValue p.wIndex p.wLength s) = some s' ∧
      s'.UECONX = Function.update s.UECONX s.UENUM ((1 <<< STALLRQ) ||| (1 <<< EPEN)) ∧
      s'.dev = s.dev ∧ s'.log = s.log := by
  obtain ⟨ty, req, v, i, l⟩ := p
  simp only [matchesRow, not_or] at hno
  obtain ⟨h1, c5, c9, c8, c0, h6, h7⟩ := hno
  unfold dispatch
  by_cases c6 : req = GET_DESCRIPTOR
  · have hv : ¬ (v = 0x0100 ∧ i = 0x0000) ∧ ¬ (v = 0x0200 ∧ i = 0x0000) ∧
        ¬ (v = 0x2200 ∧ i = 0x0000) ∧ ¬ (v = 0x2100 ∧ i = 0x0000) := by
      refine ⟨?_, ?_, ?_, ?_⟩ <;>
        (rintro ⟨hv, hi⟩; exact h1 ⟨c6, hi, by simp [hv]⟩)
    rw [if_pos c6, if_neg hv.1, if_neg hv.2.1, if_neg hv.2.2.1, if_neg hv.2.2.2]
    exact ⟨_, rfl, rfl, rfl, rfl⟩
  rw [if_neg c6, if_neg c5, if_neg c9, if_neg c8, if_neg c0]
  by_cases cf : (req = CLEAR_FEATURE ∨ req = SET_FEATURE) ∧ ty = 0x02 ∧ v = 0
  · have hi : ¬ ((i &&& 0x007f) % 256 ≥ 1 ∧ (i &&& 0x007f) % 256 ≤ 4) := by
      rw [feature_index_mod]
      rintro ⟨a, b⟩
      exact h6 ⟨cf.1, cf.2.1, cf.2.2, a, b⟩
    rw [if_pos cf]
    simp only [hi, if_false]
    exact ⟨_, rfl, rfl, rfl, rfl⟩
  rw [if_neg cf]
  by_cases ck : i = KEYBOARD_INTERFACE
  · rw [if_pos ck]
    by_cases ca : ty = 0xA1
    · have hr : ¬ req = HID_GET_REPORT ∧ ¬ req = HID_GET_IDLE ∧ ¬ req = HID_GET_PROTOCOL := by
        refine ⟨?_, ?_, ?_⟩ <;> (intro hq; exact h7 ⟨ck, Or.inl ⟨ca, by simp [hq]⟩⟩)
      rw [if_pos ca, if_neg hr.1, if_neg hr.2.1, if_neg hr.2.2]
      exact ⟨_, rfl, rfl, rfl, rfl⟩
    rw [if_neg ca]
    by_cases cb : ty = 0x21
    · have hr : ¬ req = HID_SET_REPORT ∧ ¬ req = HID_SET_IDLE ∧ ¬ req = HID_SET_PROTOCOL := by
        refine ⟨?_, ?_, ?_⟩ <;> (intro hq; exact h7 ⟨ck, Or.inr ⟨cb, by simp [hq]⟩⟩)
      rw [if_pos cb, if_neg hr.1, if_neg hr.2.1, if_neg hr.2.2]
      exact ⟨_, rfl, rfl, rfl, rfl⟩
    rw [if_neg cb]
    exact ⟨_, rfl, rfl, rfl, rfl⟩
  rw [if_neg ck]
  exact ⟨_, rfl, rfl, rfl, rfl⟩

theorem unmatched_setup_stalls (s : State) (p : Setup) (rest : List Nat) (hp : p.wf)
    (hin : s.uedatxIn = p.bytes ++ rest) (hflag : nextUEINTX s &&& (1 <<< RXSTPI) ≠ 0)
    (hno : ¬ matchesRow p) :
    ∃ s', USB_COM_vect s = some s' ∧
      s'.UECONX = Function.update s.UECONX 0 ((1 <<< STALLRQ) ||| (1 <<< EPEN)) ∧
      s'.dev = s.dev ∧ s'.log = s.log ++ [Ev.UEINTX 0 0xF2] := by
  rw [USB_COM_vect_setup s p rest hp hin hflag]
  obtain ⟨s', h1, h2, h3, h4⟩ := unmatched_dispatch p (afterSetup s rest) hno
  exact ⟨s', h1, h2, h3, h4⟩

theorem no_setup_stalls (s : State) (hflag : nextUEINTX s &&& (1 <<< RXSTPI) = 0) :
    ∃ s', USB_COM_vect s = some s' ∧
      s'.UECONX = Function.update s.UECONX 0 ((1 <<< STALLRQ) ||| (1 <<< EPEN)) ∧
      s'.dev = s.dev ∧ s'.log = s.log := by
  have hf : (rdUEINTX (wrUENUM 0 s)).1 = nextUEINTX s := by
    simp [rdUEINTX, wrUENUM, nextUEINTX, headRead]; cases s.ueintxIn <;> simp
  unfold USB_COM_vect
  simp only [hf, hflag, ne_eq, not_true_eq_false, if_false]
  simp [rdUEINTX_tail, wrUECONX, wrUENUM, STALLRQ, EPEN]

/-- C9: when the SETUP packet read by `ISR(USB_COM_vect)` matches no row of the dispatch
table, and also when the handler runs with `RXSTPI` clear, the handler returns having
requested a stall on endpoint 0 (`UECONX` of endpoint 0 is `STALLRQ | EPEN`), with every
Device State field unchanged; no other endpoint's `UECONX` changes and no byte is written
to a FIFO. -/
theorem unmatched_request_stalls (s : State) (p : Setup) (rest : List Nat)
    (h : nextUEINTX s &&& (1 <<< RXSTPI) = 0 ∨
      (p.wf ∧ s.uedatxIn = p.bytes ++ rest ∧ ¬ matchesRow p)) :
    ∃ s', USB_COM_vect s = some s' ∧
      s'.UECONX 0 = (1 <<< STALLRQ) ||| (1 <<< EPEN) ∧
      s'.dev = s.dev ∧
      (∀ e, e ≠ 0 → s'.UECONX e = s.UECONX e) ∧
      (∀ ep, txBytes ep s'.log = txBytes ep s.log) := by
  have tx : ∀ ep (l : List Ev) v, txBytes ep (l ++ [Ev.UEINTX 0 v]) = txBytes ep l := by
    intro ep l v
    induction l with
    | nil => rfl
    | cons a l ih => cases a <;> simp [txBytes, ih]
  by_cases hflag : nextUEINTX s &&& (1 <<< RXSTPI) = 0
  · obtain ⟨s', h1, h2, h3, h4⟩ := no_setup_stalls s hflag
    refine ⟨s', h1, by simp [h2], h3, ?_, by simp [h4]⟩
    intro e he
    simp [h2, he]
  · obtain ⟨hp, hin, hno⟩ := h.resolve_left hflag
    obtain ⟨s', h1, h2, h3, h4⟩ := unmatched_setup_stalls s p rest hp hin hflag hno
    refine ⟨s', h1, by simp [h2], h3, ?_, by simp [h4, tx]⟩
    intro e he
    simp [h2, he]

theorem unmatched_request_stalls_witness :
    (nextUEINTX (powerOn.arrive [8] 0 (Setup.mk 0x80 10 0 0 1).bytes) &&& (1 <<< RXSTPI) = 0 ∨
      ((Setup.mk 0x80 10 0 0 1).wf ∧
        (powerOn.arrive [8] 0 (Setup.mk 0x80 10 0 0 1).bytes).uedatxIn =
          (Setup.mk 0x80 10 0 0 1).bytes ++ [] ∧
        ¬ matchesRow (Setup.mk 0x80 10 0 0 1))) ∧
    ∃ s', USB_COM_vect (powerOn.arrive [8] 0 (Setup.mk 0x80 10 0 0 1).bytes) = some s' ∧
      s'.UECONX 0 = (1 <<< STALLRQ) ||| (1 <<< EPEN) ∧
      s'.dev = (powerOn.arrive [8] 0 (Setup.mk 0x80 10 0 0 1).bytes).dev ∧
      (∀ e, e ≠ 0 → s'.UECONX e =
        (powerOn.arrive [8] 0 (Setup.mk 0x80 10 0 0 1).bytes).UECONX e) ∧
      (∀ ep, txBytes ep s'.log =
        txBytes ep (powerOn.arrive [8] 0 (Setup.mk 0x80 10 0 0 1).bytes).log) :=
  ⟨Or.inr ⟨by decide, by simp [State.arrive], by decide⟩,
   unmatched_request_stalls (powerOn.arrive [8] 0 (Setup.mk 0x80 10 0 0 1).bytes)
    (Setup.mk 0x80 10 0 0 1) []
    (Or.inr ⟨by decide, by simp [State.arrive], by decide⟩)⟩

/-- C10: `CLEAR_FEATURE` or `SET_FEATURE` with `bmRequestType = 0x02`, `wValue = 0` and an
endpoint index `wIndex & 0x7f` outside 1..4 changes the `UECONX` (halt state) of no endpoint
other than endpoint 0, writes nothing to `UERST` (no data toggle is reset: the only register
write logged is the SETUP acknowledge), leaves the Device State unchanged, and ends with the
stall request `STALLRQ | EPEN` on endpoint 0. -/
theorem feature_bad_index_stalls (s : State) (req i l : Nat) (rest : List Nat)
    (hreq : req = CLEAR_FEATURE ∨ req = SET_FEATURE) (hi : i < 65536) (hl : l < 65536)
    (hout : ¬ (1 ≤ i &&& 0x7f ∧ i &&& 0x7f ≤ 4))
    (hin : s.uedatxIn = (Setup.mk 0x02 req 0 i l).bytes ++ rest)
    (hflag : nextUEINTX s &&& (1 <<< RXSTPI) ≠ 0) :
    ∃ s', USB_COM_vect s = some s' ∧
      s'.UECONX = Function.update s.UECONX 0 ((1 <<< STALLRQ) ||| (1 <<< EPEN)) ∧
      s'.log = s.log ++ [Ev.UEINTX 0 0xF2] ∧
      s'.dev = s.dev := by
  have hno : ¬ matchesRow (Setup.mk 0x02 req 0 i l) := by
    simp only [matchesRow, not_or]
    rcases hreq with rfl | rfl <;>
      refine ⟨by simp [CLEAR_FEATURE, SET_FEATURE, GET_DESCRIPTOR],
        by simp [CLEAR_FEATURE, SET_FEATURE, SET_ADDRESS],
        by simp, by simp, by simp [CLEAR_FEATURE, SET_FEATURE, GET_STATUS], ?_, ?_⟩ <;>
      first
      | (rintro ⟨_, _, _, a, b⟩; exact hout ⟨a, b⟩)
      | (rintro ⟨_, h | h⟩ <;> exact absurd h.1 (by simp))
  have hp : (Setup.mk 0x02 req 0 i l).wf := by
    refine ⟨by simp, ?_, by simp, hi, hl⟩
    rcases hreq with rfl | rfl <;> simp [CLEAR_FEATURE, SET_FEATURE]
  obtain ⟨s', h1, h2, h3, h4⟩ := unmatched_setup_stalls s _ rest hp hin hflag hno
  exact ⟨s', h1, h2, h4, h3⟩

theorem feature_bad_index_stalls_witness :
    ¬ (1 ≤ 5 &&& 0x7f ∧ 5 &&& 0x7f ≤ 4) ∧
    ∃ s', USB_COM_vect (powerOn.arrive [8] 0 (Setup.mk 0x02 SET_FEATURE 0 5 0).bytes) = some s' ∧
      s'.UECONX = Function.update (powerOn.arrive [8] 0
        (Setup.mk 0x02 SET_FEATURE 0 5 0).bytes).UECONX 0 ((1 <<< STALLRQ) ||| (1 <<< EPEN)) ∧
      s'.log = (powerOn.arrive [8] 0 (Setup.mk 0x02 SET_FEATURE 0 5 0).bytes).log ++
        [Ev.UEINTX 0 0xF2] ∧
      s'.dev = (powerOn.arrive [8] 0 (Setup.mk 0x02 SET_FEATURE 0 5 0).bytes).dev :=
  ⟨by decide, feature_bad_index_stalls
    (powerOn.arrive [8] 0 (Setup.mk 0x02 SET_FEATURE 0 5 0).bytes) SET_FEATURE 5 0 []
    (Or.inr rfl) (by decide) (by decide) (by decide) (by simp [State.arrive]) (by decide)⟩

/-! ## `GET_DESCRIPTOR`: the streaming loop -/

theorem MIN_eq_min (a b : Nat) : MIN a b = min a b := by
  unfold MIN
  split <;> omega

theorem writeBytes_eq (tbl : List Nat) :
    ∀ (n p : Nat) (s : State), p + n ≤ tbl.length →
      writeBytes tbl p n s =
        { s with log := s.log ++
            ((tbl.drop p).take n).map (fun b => Ev.UEDATX s.UENUM (b % 256)) } := by
  intro n
  induction n with
  | zero => intro p s _; simp [writeBytes]
  | succ n ih =>
    intro p s h
    have hp : p < tbl.length := by omega
    rw [writeBytes, ih (p + 1) _ (by omega), List.drop_eq_getElem_cons hp]
    simp only [wrUEDATX, List.take_succ_cons, List.map_cons, List.append_assoc,
      List.singleton_append, List.getD_eq_getElem?_getD, List.getElem?_eq_getElem hp,
      Option.getD_some]

theorem txBytes_append (ep : Nat) (l1 l2 : List Ev) :
    txBytes ep (l1 ++ l2) = txBytes ep l1 ++ txBytes ep l2 := by
  induction l1 with
  | nil => rfl
  | cons a l ih =>
    cases a with
    | UEDATX e v => by_cases h : e = ep <;> simp [txBytes, h, ih]
    | UEINTX e v => simp [txBytes, ih]
    | UERST v => simp [txBytes, ih]

theorem txBytes_map (ep : Nat) (f : Nat → Nat) (bs : List Nat) :
    txBytes ep (bs.map (fun b => Ev.UEDATX ep (f b))) = bs.map f := by
  induction bs with
  | nil => rfl
  | cons b bs ih => simp [txBytes, ih]

theorem packetsFrom_map (ep : Nat) (f : Nat → Nat) (bs : List Nat) (rest : List Ev) :
    ∀ cur, packetsFrom ep (bs.map (fun b => Ev.UEDATX ep (f b)) ++ rest) cur =
      packetsFrom ep rest (cur ++ bs.map f) := by
  induction bs with
  | nil => intro cur; simp
  | cons b bs ih => intro cur; simp [packetsFrom, ih]

theorem cleared_TXINI (x : Nat) : ((x &&& 254) % 256) &&& (1 <<< TXINI) = 0 := by
  have h : (x &&& 254) % 256 = x &&& 254 :=
    Nat.mod_eq_of_lt (Nat.lt_of_le_of_lt Nat.and_le_right (by decide))
  rw [h, Nat.and_assoc]
  simp [TXINI]

theorem streamLoop_step (tbl : List Nat) (p left : Nat) (s : State) (r : List Nat)
    (h0 : 0 < left) (hlen : p + left ≤ tbl.length) (hb : ∀ b ∈ tbl, b < 256)
    (hr : waitUEINTX (1 <<< TXINI) s = some { s with ueintxIn := r }) :
    streamLoop tbl p left s =
      streamLoop tbl (p + min left 32) (left - min left 32)
        { s with ueintxIn := r.tail,
                 log := s.log ++
                   (((tbl.drop p).take (min left 32)).map (fun b => Ev.UEDATX s.UENUM b) ++
                    [Ev.UEINTX s.UENUM ((headRead r s.ueintxIdle &&& 254) % 256)]) } := by
  have hm : ((tbl.drop p).take (min left 32)).map (fun b => Ev.UEDATX s.UENUM (b % 256)) =
      ((tbl.drop p).take (min left 32)).map (fun b => Ev.UEDATX s.UENUM b) := by
    apply List.map_congr_left
    intro b hmem
    rw [Nat.mod_eq_of_lt (hb b (List.mem_of_mem_drop (List.mem_of_mem_take hmem)))]
  rw [streamLoop]
  simp only [gt_iff_lt, h0, dite_true, hr, MIN_eq_min, ENDPOINT0_SIZE]
  rw [writeBytes_eq tbl _ _ _ (by omega), clearTXINI_eq]
  simp only [hm, nextUEINTX, List.append_assoc]

theorem streamLoop_spec (tbl : List Nat) (hb : ∀ b ∈ tbl, b < 256) :
    ∀ (left p : Nat) (s : State), p + left ≤ tbl.length → s.UENUM = 0 →
      (s.ueintxIdle % 256) &&& (1 <<< TXINI) ≠ 0 →
      ∃ s' d, streamLoop tbl p left s = some s' ∧ s'.log = s.log ++ d ∧ s'.dev = s.dev ∧
        s'.UECONX = s.UECONX ∧
        txBytes 0 d = (tbl.drop p).take left ∧
        (packets 0 d).flatten = (tbl.drop p).take left ∧
        (packets 0 d).length = (left + 31) / 32 ∧
        (∀ pk ∈ packets 0 d, 1 ≤ pk.length ∧ pk.length ≤ ENDPOINT0_SIZE) ∧
        ∀ pk ∈ (packets 0 d).dropLast, pk.length = ENDPOINT0_SIZE := by
  intro left
  induction left using Nat.strong_induction_on with
  | _ left ih =>
    intro p s hlen hu hidle
    by_cases h0 : left = 0
    · subst h0
      refine ⟨s, [], ?_, by simp, rfl, rfl, by simp [txBytes], by simp [packets, packetsFrom],
        by simp [packets, packetsFrom], by simp [packets, packetsFrom],
        by simp [packets, packetsFrom]⟩
      rw [streamLoop]
      simp
    · have hpos : 0 < left := Nat.pos_of_ne_zero h0
      obtain ⟨r, hr⟩ := waitUEINTX_ready (1 <<< TXINI) s hidle
      rw [streamLoop_step tbl p left s r hpos hlen hb hr]
      have hn : 1 ≤ min left 32 ∧ min left 32 ≤ left := by omega
      obtain ⟨s', d, e1, e2, e3, e4, e5, e6, e7, e8, e9⟩ :=
        ih (left - min left 32) (by omega) (p + min left 32)
          { s with ueintxIn := r.tail,
                   log := s.log ++
                     (((tbl.drop p).take (min left 32)).map (fun b => Ev.UEDATX s.UENUM b) ++
                      [Ev.UEINTX s.UENUM ((headRead r s.ueintxIdle &&& 254) % 256)]) }
          (by omega) hu hidle
      have hchunk : ((tbl.drop p).take (min left 32)).length = min left 32 := by
        rw [List.length_take, List.length_drop]; omega
      have hsplit : (tbl.drop p).take (min left 32) ++
          (tbl.drop (p + min left 32)).take (left - min left 32) = (tbl.drop p).take left := by
        have h := List.take_append_drop (min left 32) ((tbl.drop p).take left)
        rw [List.take_take, List.drop_take, List.drop_drop] at h
        rw [← h]
        congr 2
        omega
      have hpk : packets 0 ((((tbl.drop p).take (min left 32)).map (fun b => Ev.UEDATX 0 b) ++
            [Ev.UEINTX 0 ((headRead r s.ueintxIdle &&& 254) % 256)]) ++ d) =
          (tbl.drop p).take (min left 32) :: packets 0 d := by
        unfold packets
        rw [List.append_assoc]
        have := packetsFrom_map 0 id ((tbl.drop p).take (min left 32))
          ([Ev.UEINTX 0 ((headRead r s.ueintxIdle &&& 254) % 256)] ++ d) []
        simp only [id, List.map_id', List.nil_append] at this
        rw [this]
        simp [packetsFrom, cleared_TXINI]
      refine ⟨s', (((tbl.drop p).take (min left 32)).map (fun b => Ev.UEDATX s.UENUM b) ++
          [Ev.UEINTX s.UENUM ((headRead r s.ueintxIdle &&& 254) % 256)]) ++ d,
        e1, ?_, e3, e4, ?_, ?_, ?_, ?_, ?_⟩
      · rw [e2]; simp
      · rw [hu, txBytes_append, txBytes_append, e5]
        have := txBytes_map 0 id ((tbl.drop p).take (min left 32))
        simp only [id, List.map_id'] at this
        rw [this]
        simpa [txBytes] using hsplit
      · rw [hu, hpk, List.flatten_cons, e6, hsplit]
      · rw [hu, hpk, List.length_cons, e7]
        omega
      · rw [hu, hpk]
        intro pk hmem
        rcases List.mem_cons.mp hmem with rfl | hmem
        · rw [hchunk]; simp only [ENDPOINT0_SIZE]; omega
        · exact e8 pk hmem
      · rw [hu, hpk]
        intro pk hmem
        by_cases hnil : packets 0 d = []
        · rw [hnil] at hmem
          simp at hmem
        · rw [List.dropLast_cons_of_ne_nil hnil] at hmem
          rcases List.mem_cons.mp hmem with rfl | hmem
          · have : 0 < (packets 0 d).length := List.length_pos.mpr hnil
            rw [hchunk]; simp only [ENDPOINT0_SIZE]; omega
          · exact e9 pk hmem

theorem leave_returned (x : Option State) : leave (x.map Exit.returned) = x := by
  cases x <;> rfl

theorem get_descriptor_stream (s : State) (ty wValue wLength p n : Nat) (tbl rest : List Nat)
    (hty : ty < 256) (hv : wValue < 65536) (hl : wLength < 65536)
    (hb : ∀ b ∈ tbl, b < 256) (hlen : p + n ≤ tbl.length)
    (hin : s.uedatxIn = (Setup.mk ty GET_DESCRIPTOR wValue 0 wLength).bytes ++ rest)
    (hflag : nextUEINTX s &&& (1 <<< RXSTPI) ≠ 0)
    (hready : (s.ueintxIdle % 256) &&& (1 <<< TXINI) ≠ 0)
    (hd : dispatch ty GET_DESCRIPTOR wValue 0 wLength (afterSetup s rest) =
      (streamLoop tbl p (MIN wLength n) (afterSetup s rest)).map Exit.returned) :
    ∃ s' d, USB_COM_vect s = some s' ∧ s'.log = s.log ++ Ev.UEINTX 0 0xF2 :: d ∧
      s'.dev = s.dev ∧
      txBytes 0 d = (tbl.drop p).take (min wLength n) ∧
      (packets 0 d).flatten = (tbl.drop p).take (min wLength n) ∧
      (packets 0 d).length = (min wLength n + 31) / 32 ∧
      ∀ pk ∈ packets 0 d, 1 ≤ pk.length ∧ pk.length ≤ ENDPOINT0_SIZE := by
  rw [USB_COM_vect_setup s _ rest ⟨hty, by simp [GET_DESCRIPTOR], hv, by simp, hl⟩ hin hflag]
  simp only [hd, leave_returned, MIN_eq_min]
  obtain ⟨s', d, e1, e2, e3, _, e5, e6, e7, e8, _⟩ :=
    streamLoop_spec tbl hb (min wLength n) p (afterSetup s rest) (by omega) rfl hready
  exact ⟨s', d, e1, by simp [e2, afterSetup], e3, e5, e6, e7, e8⟩

/-- C1: for `GET_DESCRIPTOR` with `wIndex = 0` and `wValue` one of 0x0100, 0x0200, 0x2200,
0x2100, any 16-bit `wLength` (and any `bmRequestType`), with `TXINI` eventually set, the
handler returns, and after the SETUP acknowledge the bytes it writes to endpoint 0 are the
first `min wLength L` bytes of the selected table (`device_descriptor`, L = 18;
`configuration_descriptor`, L = 34; `keyboard_hid_report_desc`, L = 63; the 9 bytes of
`configuration_descriptor` from offset 18); every byte is released in some packet and no
packet carries more than `ENDPOINT0_SIZE = 32` bytes. -/
theorem get_descriptor_bytes (s : State) (ty wValue wLength : Nat) (tbl rest : List Nat)
    (hty : ty < 256) (hl : wLength < 65536)
    (hsel : (wValue, tbl) ∈
      [(0x0100, device_descriptor), (0x0200, configuration_descriptor),
       (0x2200, keyboard_hid_report_desc),
       (0x2100, (configuration_descriptor.drop KEYBOARD_HID_DESC_OFFSET).take 9)])
    (hin : s.uedatxIn = (Setup.mk ty GET_DESCRIPTOR wValue 0 wLength).bytes ++ rest)
    (hflag : nextUEINTX s &&& (1 <<< RXSTPI) ≠ 0)
    (hready : (s.ueintxIdle % 256) &&& (1 <<< TXINI) ≠ 0) :
    ∃ s' d, USB_COM_vect s = some s' ∧ s'.log = s.log ++ Ev.UEINTX 0 0xF2 :: d ∧
      txBytes 0 d = tbl.take (min wLength tbl.length) ∧
      (packets 0 d).flatten = txBytes 0 d ∧
      (∀ pk ∈ packets 0 d, pk.length ≤ ENDPOINT0_SIZE) ∧
      ENDPOINT0_SIZE = 32 ∧
      device_descriptor.length = 18 ∧ configuration_descriptor.length = 34 ∧
      keyboard_hid_report_desc.length = 63 ∧
      ((configuration_descriptor.drop KEYBOARD_HID_DESC_OFFSET).take 9).length = 9 := by
  simp only [List.mem_cons, Prod.mk.injEq, List.mem_singleton, List.not_mem_nil, or_false] at hsel
  rcases hsel with ⟨rfl, rfl⟩ | ⟨rfl, rfl⟩ | ⟨rfl, rfl⟩ | ⟨rfl, rfl⟩
  · obtain ⟨s', d, e1, e2, _, e4, e5, _, e7⟩ := get_descriptor_stream s ty 0x0100 wLength 0
      device_descriptor.length device_descriptor rest hty (by decide) hl (by decide)
      (by omega) hin hflag hready (by simp [dispatch])
    exact ⟨s', d, e1, e2, by simpa using e4, by rw [e5, e4], fun pk h => (e7 pk h).2,
      rfl, rfl, rfl, rfl, rfl⟩
  · obtain ⟨s', d, e1, e2, _, e4, e5, _, e7⟩ := get_descriptor_stream s ty 0x0200 wLength 0
      configuration_descriptor.length configuration_descriptor rest hty (by decide) hl
      (by decide) (by omega) hin hflag hready (by simp [dispatch])
    exact ⟨s', d, e1, e2, by simpa using e4, by rw [e5, e4], fun pk h => (e7 pk h).2,
      rfl, rfl, rfl, rfl, rfl⟩
  · obtain ⟨s', d, e1, e2, _, e4, e5, _, e7⟩ := get_descriptor_stream s ty 0x2200 wLength 0
      keyboard_hid_report_desc.length keyboard_hid_report_desc rest hty (by decide) hl
      (by decide) (by omega) hin hflag hready (by simp [dispatch])
    exact ⟨s', d, e1, e2, by simpa using e4, by rw [e5, e4], fun pk h => (e7 pk h).2,
      rfl, rfl, rfl, rfl, rfl⟩
  · obtain ⟨s', d, e1, e2, _, e4, e5, _, e7⟩ := get_descriptor_stream s ty 0x2100 wLength
      KEYBOARD_HID_DESC_OFFSET 9 configuration_descriptor rest hty (by decide) hl
      (by decide) (by decide) hin hflag hready (by simp [dispatch])
    have h9 : ((configuration_descriptor.drop KEYBOARD_HID_DESC_OFFSET).take 9).length = 9 := rfl
    refine ⟨s', d, e1, e2, ?_, by rw [e5, e4], fun pk h => (e7 pk h).2,
      rfl, rfl, rfl, rfl, rfl⟩
    rw [e4, h9, List.take_take]
    congr 1
    omega

theorem get_descriptor_bytes_witness :
    ((0x0100, device_descriptor) ∈
      [(0x0100, device_descriptor), (0x0200, configuration_descriptor),
       (0x2200, keyboard_hid_report_desc),
       (0x2100, (configuration_descriptor.drop KEYBOARD_HID_DESC_OFFSET).take 9)] ∧
     nextUEINTX (powerOn.arrive [8] 1 (Setup.mk 0x80 GET_DESCRIPTOR 0x0100 0 64).bytes) &&&
       (1 <<< RXSTPI) ≠ 0) ∧
    ∃ s' d, USB_COM_vect (powerOn.arrive [8] 1
        (Setup.mk 0x80 GET_DESCRIPTOR 0x0100 0 64).bytes) = some s' ∧
      s'.log = (powerOn.arrive [8] 1 (Setup.mk 0x80 GET_DESCRIPTOR 0x0100 0 64).bytes).log ++
        Ev.UEINTX 0 0xF2 :: d ∧
      txBytes 0 d = device_descriptor.take (min 64 device_descriptor.length) ∧
      (packets 0 d).flatten = txBytes 0 d ∧
      (∀ pk ∈ packets 0 d, pk.length ≤ ENDPOINT0_SIZE) ∧
      ENDPOINT0_SIZE = 32 ∧
      device_descriptor.length = 18 ∧ configuration_descriptor.length = 34 ∧
      keyboard_hid_report_desc.length = 63 ∧
      ((configuration_descriptor.drop KEYBOARD_HID_DESC_OFFSET).take 9).length = 9 :=
  ⟨⟨by simp, by decide⟩,
   get_descriptor_bytes (powerOn.arrive [8] 1 (Setup.mk 0x80 GET_DESCRIPTOR 0x0100 0 64).bytes)
    0x80 0x0100 64 device_descriptor [] (by decide) (by decide) (by simp)
    (by simp [State.arrive]) (by decide) (by decide)⟩

/-! ## Start of frame: the idle counter and the report flush -/

theorem and_three (x : Nat) : x &&& 3 = x % 4 := Nat.and_pow_two_sub_one_eq_mod x 2

theorem sof_event_eq (s : State) (u : Nat) (hu : isSOF u)
    (hcc : 0 < s.dev.current_configuration) :
    genEvent u s =
      if (s.div4 + 1) % 4 = 0 then
        if nextUEINTX s &&& (1 <<< RWAL) ≠ 0 then
          if (s.dev.keyboard_idle_count + 1) % 256 = s.dev.keyboard_idle_config then
            wrUEINTX 0x3A (writeReport
              { s with UDINT := 0, div4 := (s.div4 + 1) % 256, UENUM := KEYBOARD_ENDPOINT,
                       ueintxIn := s.ueintxIn.tail,
                       dev := { s.dev with keyboard_idle_count := 0 } })
          else
            { s with UDINT := 0, div4 := (s.div4 + 1) % 256, UENUM := KEYBOARD_ENDPOINT,
                     ueintxIn := s.ueintxIn.tail,
                     dev := { s.dev with
                       keyboard_idle_count := (s.dev.keyboard_idle_count + 1) % 256 } }
        else
          { s with UDINT := 0, div4 := (s.div4 + 1) % 256, UENUM := KEYBOARD_ENDPOINT,
                   ueintxIn := s.ueintxIn.tail }
      else { s with UDINT := 0, div4 := (s.div4 + 1) % 256 } := by
  obtain ⟨h1, h2⟩ := hu
  have hd : ((s.div4 + 1) % 256) % 4 = (s.div4 + 1) % 4 := by omega
  have hf : ∀ t : State, (rdUEINTX t).1 = nextUEINTX t := by
    intro t
    simp [rdUEINTX, nextUEINTX, headRead]; cases t.ueintxIn <;> simp
  unfold genEvent USB_GEN_vect
  simp only [h1, h2, hcc, and_three, hd, hf, rdUEINTX_tail, ne_eq, not_true_eq_false,
    not_false_eq_true, if_true, if_false, and_self, gt_iff_lt, wrUENUM, KEYBOARD_ENDPOINT,
    nextUEINTX]

theorem writeReport_eq (s : State) (h6 : s.dev.keyboard_keys.length = 6) :
    writeReport s =
      { s with log := s.log ++
          ([Ev.UEDATX s.UENUM (s.dev.keyboard_modifier_keys % 256), Ev.UEDATX s.UENUM 0] ++
            s.dev.keyboard_keys.map (fun b => Ev.UEDATX s.UENUM (b % 256))) } := by
  unfold writeReport
  simp only [wrUEDATX]
  rw [writeBytes_eq _ 6 0 _ (by simp [h6])]
  simp [h6]

theorem idling_step (k m : Nat) (keys : List Nat) (s : State) (u : Nat)
    (hk : k < 256) (hm : m < 256) (h6 : keys.length = 6) (hb : ∀ b ∈ keys, b < 256)
    (hs : Idling k m keys s) (hu : isSOF u) :
    Idling k m keys (genEvent u s) ∧
    tick (genEvent u s) = (tick s + 1) % (4 * period k) ∧
    (genEvent u s).log = s.log ++
      (if (tick s + 1) % (4 * period k) = 0 then reportEvents m keys else []) := by
  obtain ⟨hcc, hcfg, hmod, hkeys, hcnt, hscript, hidle⟩ := hs
  have hP : (k = 0 ∧ period k = 256) ∨ (0 < k ∧ period k = k) := by
    unfold period; split <;> omega
  have hrw : nextUEINTX s &&& (1 <<< RWAL) ≠ 0 := by
    unfold nextUEINTX headRead
    cases hq : s.ueintxIn with
    | nil => simpa using hidle
    | cons v r => exact hscript v (by simp [hq])
  have htail : ∀ v ∈ s.ueintxIn.tail, (v % 256) &&& (1 <<< RWAL) ≠ 0 :=
    fun v hv => hscript v (List.mem_of_mem_tail hv)
  have hmap : keys.map (fun b => Ev.UEDATX KEYBOARD_ENDPOINT (b % 256)) =
      keys.map (Ev.UEDATX KEYBOARD_ENDPOINT) := by
    apply List.map_congr_left
    intro b hmem
    rw [Nat.mod_eq_of_lt (hb b hmem)]
  rw [sof_event_eq s u hu hcc]
  by_cases h3 : (s.div4 + 1) % 4 = 0
  · by_cases hfl : s.dev.keyboard_idle_count + 1 = period k
    · have hc : (s.dev.keyboard_idle_count + 1) % 256 = s.dev.keyboard_idle_config := by
        omega
      have ht : tick s + 1 = 4 * period k := by unfold tick; omega
      rw [if_pos h3, if_pos hrw, if_pos hc, ht, Nat.mod_self, if_pos rfl,
        writeReport_eq _ (by simpa [hkeys] using h6)]
      refine ⟨⟨hcc, hcfg, hmod, hkeys, by simpa using (by omega : 0 < period k), htail,
        hidle⟩, ?_, ?_⟩
      · simp only [tick, wrUEINTX]; omega
      · simp [wrUEINTX, reportEvents, hmod, hkeys, hmap, Nat.mod_eq_of_lt hm]
    · have hc : ¬ (s.dev.keyboard_idle_count + 1) % 256 = s.dev.keyboard_idle_config := by
        omega
      have ht : (tick s + 1) % (4 * period k) = tick s + 1 :=
        Nat.mod_eq_of_lt (by unfold tick; omega)
      have h0 : ¬ tick s + 1 = 0 := by omega
      rw [if_pos h3, if_pos hrw, if_neg hc, ht, if_neg h0]
      refine ⟨⟨hcc, hcfg, hmod, hkeys, ?_, htail, hidle⟩, ?_, by simp⟩
      · show (s.dev.keyboard_idle_count + 1) % 256 < period k
        omega
      · simp only [tick]; omega
  · have ht : (tick s + 1) % (4 * period k) = tick s + 1 :=
      Nat.mod_eq_of_lt (by unfold tick; omega)
    have h0 : ¬ tick s + 1 = 0 := by omega
    rw [if_neg h3, ht, if_neg h0]
    refine ⟨⟨hcc, hcfg, hmod, hkeys, hcnt, hscript, hidle⟩, ?_, by simp⟩
    simp only [tick]; omega

theorem idling_tick_lt (k m : Nat) (keys : List Nat) (s : State) (hs : Idling k m keys s) :
    tick s < 4 * period k := by
  obtain ⟨_, _, _, _, hcnt, _, _⟩ := hs
  unfold tick; omega

theorem idling_run (k m : Nat) (keys : List Nat)
    (hk : k < 256) (hm : m < 256) (h6 : keys.length = 6) (hb : ∀ b ∈ keys, b < 256) :
    ∀ (evs : List Nat) (s : State), (∀ u ∈ evs, isSOF u) → Idling k m keys s →
      Idling k m keys (genRun evs s) ∧
      tick (genRun evs s) = (tick s + evs.length) % (4 * period k) ∧
      (genRun evs s).log = s.log ++
        (List.replicate ((tick s + evs.length) / (4 * period k))
          (reportEvents m keys)).flatten := by
  intro evs
  induction evs with
  | nil =>
    intro s _ hs
    have hlt := idling_tick_lt k m keys s hs
    refine ⟨hs, ?_, ?_⟩
    · simp [genRun, Nat.mod_eq_of_lt hlt]
    · simp [genRun, Nat.div_eq_of_lt hlt]
  | cons u us ih =>
    intro s hev hs
    have hlt := idling_tick_lt k m keys s hs
    obtain ⟨i1, t1, l1⟩ := idling_step k m keys s u hk hm h6 hb hs (hev u (by simp))
    obtain ⟨i2, t2, l2⟩ := ih (genEvent u s) (fun x hx => hev x (by simp [hx])) i1
    have hpos : 0 < 4 * period k := by omega
    refine ⟨i2, ?_, ?_⟩
    · show tick (genRun us (genEvent u s)) = _
      rw [t2, t1, Nat.mod_add_mod, List.length_cons]
      congr 1; omega
    · show (genRun us (genEvent u s)).log = _
      rw [l2, l1, t1, List.length_cons]
      by_cases hw : tick s + 1 = 4 * period k
      · have e1 : tick s + (us.length + 1) = 4 * period k + us.length := by omega
        rw [hw, Nat.mod_self, if_pos rfl, e1, Nat.add_div_left _ hpos, Nat.zero_add,
          List.replicate_succ, List.flatten_cons, List.append_assoc]
      · have e0 : (tick s + 1) % (4 * period k) = tick s + 1 :=
          Nat.mod_eq_of_lt (by omega)
        have e1 : tick s + (us.length + 1) = tick s + 1 + us.length := by omega
        rw [e0, if_neg (by omega), e1, List.append_nil]

theorem genRun_append (evs : List Nat) (u : Nat) :
    ∀ s, genRun (evs ++ [u]) s = genEvent u (genRun evs s) := by
  induction evs with
  | nil => intro s; rfl
  | cons v vs ih => intro s; simp [genRun, ih]

/-- C4: in a configured state with `idle_config = k`, `0 < k`, `idle_count = 0`, modifier
`m` and keycodes `k1..k6`, with `RWAL` set at every read of `UEINTX`, a start-of-frame event
following the start-of-frame events `pre` appends to the log the report
`[m, 0, k1, k2, k3, k4, k5, k6]` on the keyboard endpoint followed by `UEINTX = 0x3A`
exactly when `4 * k` divides `div4 % 4 + pre.length + 1`, and appends nothing otherwise: the
flushes are the events number `4k - div4 % 4`, `8k - div4 % 4`, ..., one every `4 * k`
events (the events number `4k, 8k, ...` from `div4 = 0`). -/
theorem sof_report_every_4k (s : State) (k m k1 k2 k3 k4 k5 k6 u : Nat) (pre : List Nat)
    (hk0 : 0 < k) (hk : k < 256) (hm : m < 256)
    (hb : ∀ b ∈ [k1, k2, k3, k4, k5, k6], b < 256)
    (hcc : s.dev.current_configuration ≠ 0)
    (hcfg : s.dev.keyboard_idle_config = k) (hcnt : s.dev.keyboard_idle_count = 0)
    (hmod : s.dev.keyboard_modifier_keys = m)
    (hkeys : s.dev.keyboard_keys = [k1, k2, k3, k4, k5, k6])
    (hscript : ∀ v ∈ s.ueintxIn, (v % 256) &&& (1 <<< RWAL) ≠ 0)
    (hidle : (s.ueintxIdle % 256) &&& (1 <<< RWAL) ≠ 0)
    (hev : ∀ x ∈ pre ++ [u], isSOF x) :
    (genRun (pre ++ [u]) s).log = (genRun pre s).log ++
      (if (s.div4 % 4 + pre.length + 1) % (4 * k) = 0 then
        [Ev.UEDATX 3 m, Ev.UEDATX 3 0, Ev.UEDATX 3 k1, Ev.UEDATX 3 k2, Ev.UEDATX 3 k3,
         Ev.UEDATX 3 k4, Ev.UEDATX 3 k5, Ev.UEDATX 3 k6, Ev.UEINTX 3 0x3A]
       else []) := by
  have hP : period k = k := by unfold period; split <;> omega
  have hs : Idling k m [k1, k2, k3, k4, k5, k6] s :=
    ⟨Nat.pos_of_ne_zero hcc, hcfg, hmod, hkeys, by omega, hscript, hidle⟩
  obtain ⟨i1, t1, _⟩ := idling_run k m [k1, k2, k3, k4, k5, k6] hk hm rfl hb pre s
    (fun x hx => hev x (by simp [hx])) hs
  obtain ⟨_, _, l2⟩ := idling_step k m [k1, k2, k3, k4, k5, k6] (genRun pre s) u hk hm rfl hb
    i1 (hev u (by simp))
  have ht : tick s = s.div4 % 4 := by unfold tick; omega
  rw [genRun_append, l2, t1, Nat.mod_add_mod, ht, hP]
  rfl

theorem sof_report_every_4k_witness :
    (0 < 1 ∧ (∀ x ∈ [4, 4, 4] ++ [4], isSOF x)) ∧
    (genRun ([4, 4, 4] ++ [4]) idleOne).log = (genRun [4, 4, 4] idleOne).log ++
      (if (idleOne.div4 % 4 + [4, 4, 4].length + 1) % (4 * 1) = 0 then
        [Ev.UEDATX 3 0, Ev.UEDATX 3 0, Ev.UEDATX 3 0, Ev.UEDATX 3 0, Ev.UEDATX 3 0,
         Ev.UEDATX 3 0, Ev.UEDATX 3 0, Ev.UEDATX 3 0, Ev.UEINTX 3 0x3A]
       else []) :=
  ⟨by decide, sof_report_every_4k idleOne 1 0 0 0 0 0 0 0 4 [4, 4, 4] (by decide) (by decide)
    (by decide) (by decide) (by decide) rfl rfl rfl rfl (by decide) (by decide) (by decide)⟩

theorem idle_zero_step (s : State) (u : Nat) (hu : isSOF u)
    (hcc : 0 < s.dev.current_configuration) (h0 : s.dev.keyboard_idle_config = 0)
    (hc : s.dev.keyboard_idle_count < 256) (ht : tick s < 1023) :
    (genEvent u s).log = s.log ∧ tick (genEvent u s) ≤ tick s + 1 ∧
    0 < (genEvent u s).dev.current_configuration ∧
    (genEvent u s).dev.keyboard_idle_config = 0 ∧
    (genEvent u s).dev.keyboard_idle_count < 256 := by
  rw [sof_event_eq s u hu hcc]
  unfold tick at ht ⊢
  by_cases h3 : (s.div4 + 1) % 4 = 0
  · by_cases hrw : nextUEINTX s &&& (1 <<< RWAL) ≠ 0
    · have hfl : ¬ (s.dev.keyboard_idle_count + 1) % 256 = s.dev.keyboard_idle_config := by
        omega
      rw [if_pos h3, if_pos hrw, if_neg hfl]
      refine ⟨rfl, ?_, hcc, h0, ?_⟩
      · show ((s.div4 + 1) % 256) % 4 + 4 * ((s.dev.keyboard_idle_count + 1) % 256) ≤ _
        omega
      · show (s.dev.keyboard_idle_count + 1) % 256 < 256
        omega
    · rw [if_pos h3, if_neg hrw]
      refine ⟨rfl, ?_, hcc, h0, hc⟩
      show ((s.div4 + 1) % 256) % 4 + 4 * s.dev.keyboard_idle_count ≤ _
      omega
  · rw [if_neg h3]
    refine ⟨rfl, ?_, hcc, h0, hc⟩
    show ((s.div4 + 1) % 256) % 4 + 4 * s.dev.keyboard_idle_count ≤ _
    omega

theorem idle_zero_quiet : ∀ (evs : List Nat) (s : State), (∀ u ∈ evs, isSOF u) →
    0 < s.dev.current_configuration → s.dev.keyboard_idle_config = 0 →
    s.dev.keyboard_idle_count < 256 → evs.length + tick s < 1024 →
    (genRun evs s).log = s.log := by
  intro evs
  induction evs with
  | nil => intro s _ _ _ _ _; rfl
  | cons u us ih =>
    intro s hev hcc h0 hc hlen
    rw [List.length_cons] at hlen
    obtain ⟨e1, e2, e3, e4, e5⟩ :=
      idle_zero_step s u (hev u (by simp)) hcc h0 hc (by omega)
    show (genRun us (genEvent u s)).log = s.log
    rw [ih (genEvent u s) (fun x hx => hev x (by simp [hx])) e3 e4 e5 (by omega), e1]

/-- C5, as stated, fails: from power-on, after `SET_CONFIGURATION` with value 1 and
`HID SET_IDLE` with `wValue = 0` the device is configured with `idle_config = 0` and
`idle_count = 0`; with the keyboard endpoint writable, the next 1023 start-of-frame events
write nothing, and the 1024th writes a keyboard report: the 8-bit `idle_count` has wrapped
to 0 and equals `idle_config`. -/
theorem idle_zero_report_fires :
    ((USB_COM_vect (powerOn.arrive [8] 1 (Setup.mk 0 SET_CONFIGURATION 1 0 0).bytes)).bind
      (fun s1 => (USB_COM_vect (s1.arrive [8] 1 (Setup.mk 0x21 HID_SET_IDLE 0 0 0).bytes)).map
        (fun s2 =>
          (s2.dev.current_configuration, s2.dev.keyboard_idle_config,
           (genRun (List.replicate 1023 (1 <<< SOFI)) (s2.arrive [] (1 <<< RWAL) [])).log.drop
             s2.log.length,
           (genRun (List.replicate 1024 (1 <<< SOFI)) (s2.arrive [] (1 <<< RWAL) [])).log.drop
             s2.log.length)))) =
      some (1, 0, [],
        [Ev.UEDATX 3 0, Ev.UEDATX 3 0, Ev.UEDATX 3 0, Ev.UEDATX 3 0, Ev.UEDATX 3 0,
         Ev.UEDATX 3 0, Ev.UEDATX 3 0, Ev.UEDATX 3 0, Ev.UEINTX 3 0x3A]) := by
  obtain ⟨s1, e1, d1, v1⟩ := set_configuration_effect
    (powerOn.arrive [8] 1 (Setup.mk 0 SET_CONFIGURATION 1 0 0).bytes) 1 0 0 []
    (by decide) (by decide) (by decide) (by simp [State.arrive]) (by decide)
  obtain ⟨s2, e2, d2, v2⟩ := set_idle_effect
    (s1.arrive [8] 1 (Setup.mk 0x21 HID_SET_IDLE 0 0 0).bytes) 0 0 []
    (by decide) (by decide) (by simp [State.arrive])
    (by simp [nextUEINTX, headRead, State.arrive, RXSTPI])
  have hd : s2.dev =
      { current_configuration := 1, keyboard_modifier_keys := 0,
        keyboard_keys := [0, 0, 0, 0, 0, 0], keyboard_idle_config := 0,
        keyboard_idle_count := 0, keyboard_protocol := 1, keyboard_leds := 0 } := by
    rw [d2]; simp [State.arrive, d1, powerOn]
  have hv : s2.div4 = 0 := by
    rw [v2]; simp [State.arrive, v1, powerOn]
  have hev : ∀ n, ∀ u ∈ List.replicate n (1 <<< SOFI), isSOF u := by
    intro n u hu
    rw [List.eq_of_mem_replicate hu]
    decide
  have hs : Idling 0 0 [0, 0, 0, 0, 0, 0] (s2.arrive [] (1 <<< RWAL) []) :=
    ⟨by simp [State.arrive, hd], by simp [State.arrive, hd], by simp [State.arrive, hd],
     by simp [State.arrive, hd], by simp [State.arrive, hd, period],
     by simp [State.arrive], by simp [State.arrive, RWAL]⟩
  have ht : tick (s2.arrive [] (1 <<< RWAL) []) = 0 := by
    simp [tick, State.arrive, hd, hv]
  obtain ⟨_, _, l3⟩ := idling_run 0 0 [0, 0, 0, 0, 0, 0] (by decide) (by decide) rfl
    (by decide) (List.replicate 1023 (1 <<< SOFI)) _ (hev 1023) hs
  obtain ⟨_, _, l4⟩ := idling_run 0 0 [0, 0, 0, 0, 0, 0] (by decide) (by decide) rfl
    (by decide) (List.replicate 1024 (1 <<< SOFI)) _ (hev 1024) hs
  have hlen : (s2.arrive [] (1 <<< RWAL) []).log = s2.log := rfl
  rw [ht, List.length_replicate, hlen] at l3 l4
  simp only [e1, Option.some_bind, e2, Option.map_some', l3, l4, hd]
  simp [period, reportEvents, KEYBOARD_ENDPOINT]

/-- C5 (amended): with `idle_config = 0` the flush is governed by the wrap of the 8-bit
`idle_count`.  For every configured state with `idle_config = 0` and every sequence `evs` of
start-of-frame events, `ISR(USB_GEN_vect)` writes nothing as long as
`evs.length + div4 % 4 + 4 * idle_count < 1024` (none of the first 1023 events from
`idle_count = 0`, `div4 = 0`), whatever `UEINTX` reads; and when `RWAL` is set at every read
it has written exactly `(div4 % 4 + 4 * idle_count + evs.length) / 1024` reports after
`evs`: one every 1024 events. -/
theorem idle_zero_flush_on_wrap (s : State) (evs : List Nat) (m : Nat) (keys : List Nat)
    (hcc : 0 < s.dev.current_configuration) (h0 : s.dev.keyboard_idle_config = 0)
    (hc : s.dev.keyboard_idle_count < 256) (hev : ∀ u ∈ evs, isSOF u) :
    (evs.length + tick s < 1024 → (genRun evs s).log = s.log) ∧
    (m < 256 → keys.length = 6 → (∀ b ∈ keys, b < 256) →
      s.dev.keyboard_modifier_keys = m → s.dev.keyboard_keys = keys →
      (∀ v ∈ s.ueintxIn, (v % 256) &&& (1 <<< RWAL) ≠ 0) →
      (s.ueintxIdle % 256) &&& (1 <<< RWAL) ≠ 0 →
      (genRun evs s).log = s.log ++
        (List.replicate ((tick s + evs.length) / 1024) (reportEvents m keys)).flatten) := by
  refine ⟨idle_zero_quiet evs s hev hcc h0 hc, ?_⟩
  intro hm h6 hb hmod hkeys hscript hidle
  have hs : Idling 0 m keys s := ⟨hcc, h0, hmod, hkeys, by simpa [period] using hc, hscript,
    hidle⟩
  exact (idling_run 0 m keys (by decide) hm h6 hb evs s hev hs).2.2

theorem idle_zero_flush_on_wrap_witness :
    (0 < idleZero.dev.current_configuration ∧ idleZero.dev.keyboard_idle_config = 0 ∧
      (∀ u ∈ List.replicate 1023 4, isSOF u) ∧
      (List.replicate 1023 4).length + tick idleZero < 1024) ∧
    (genRun (List.replicate 1023 4) idleZero).log = idleZero.log ∧
    (genRun (List.replicate 1023 4) idleZero).log = idleZero.log ++
      (List.replicate ((tick idleZero + (List.replicate 1023 4).length) / 1024)
        (reportEvents 0 [0, 0, 0, 0, 0, 0])).flatten :=
  have hev : ∀ u ∈ List.replicate 1023 4, isSOF u := by
    intro u hu
    rw [List.eq_of_mem_replicate hu]
    decide
  have hlen : (List.replicate 1023 4).length + tick idleZero < 1024 := by
    rw [List.length_replicate]; decide
  ⟨⟨by decide, rfl, hev, hlen⟩,
   (idle_zero_flush_on_wrap idleZero (List.replicate 1023 4) 0 [0, 0, 0, 0, 0, 0]
      (by decide) rfl (by decide) hev).1 hlen,
   (idle_zero_flush_on_wrap idleZero (List.replicate 1023 4) 0 [0, 0, 0, 0, 0, 0]
      (by decide) rfl (by decide) hev).2 (by decide) rfl (by decide) rfl rfl
      (by simp [idleZero, powerOn]) (by decide)⟩

/-! ## What the handlers leave of the Device State -/

theorem waitUEINTX_some (mask : Nat) (s t : State) (h : waitUEINTX mask s = some t) :
    ∃ r, t = { s with ueintxIn := r } := by
  unfold waitUEINTX at h
  split at h
  · exact ⟨_, (Option.some.inj h).symm⟩
  · split at h
    · exact ⟨_, (Option.some.inj h).symm⟩
    · exact absurd h (by simp)

theorem waitUEINTX_dev (mask : Nat) (s t : State) (h : waitUEINTX mask s = some t) :
    t.dev = s.dev := by
  obtain ⟨r, rfl⟩ := waitUEINTX_some mask s t h; rfl

theorem writeBytes_dev (tbl : List Nat) :
    ∀ (n p : Nat) (s : State), (writeBytes tbl p n s).dev = s.dev := by
  intro n
  induction n with
  | zero => intro p s; rfl
  | succ n ih => intro p s; rw [writeBytes, ih]; rfl

theorem streamLoop_dev (tbl : List Nat) :
    ∀ (left p : Nat) (s s' : State), streamLoop tbl p left s = some s' → s'.dev = s.dev := by
  intro left
  induction left using Nat.strong_induction_on with
  | _ left ih =>
    intro p s s' h
    rw [streamLoop] at h
    by_cases h0 : left > 0
    · simp only [h0, dite_true] at h
      cases hw : waitUEINTX (1 <<< TXINI) s with
      | none => simp [hw] at h
      | some t =>
        obtain ⟨r, rfl⟩ := waitUEINTX_some _ _ _ hw
        simp only [hw] at h
        have := ih _ (by simp only [MIN_eq_min, ENDPOINT0_SIZE]; omega) _ _ _ h
        rw [this, clearTXINI_eq, writeBytes_dev]
    · simp only [h0, dite_false] at h
      rw [← Option.some.inj h]


theorem stream_exit_dev (tbl : List Nat) (p left : Nat) (s : State) (e : Exit)
    (h : (streamLoop tbl p left s).map Exit.returned = some e) : e.state.dev = s.dev := by
  cases hs : streamLoop tbl p left s with
  | none => simp [hs] at h
  | some s' =>
    simp only [hs, Option.map_some', Option.some.injEq] at h
    subst h
    exact streamLoop_dev tbl left p s s' hs

theorem dispatch_dev (ty req v i l : Nat) (s : State) (e : Exit)
    (h : dispatch ty req v i l s = some e) :
    e.state.dev = devAfter ty req v i s.dev e.state.dev.keyboard_leds := by
  unfold dispatch at h
  by_cases c6 : req = GET_DESCRIPTOR
  · have hd : devAfter ty req v i s.dev e.state.dev.keyboard_leds = s.dev := by
      subst c6; simp [devAfter, GET_DESCRIPTOR, SET_CONFIGURATION, HID_SET_REPORT, HID_SET_IDLE, HID_SET_PROTOCOL]
    rw [hd]
    rw [if_pos c6] at h
    split_ifs at h
    · exact stream_exit_dev _ _ _ _ _ h
    · exact stream_exit_dev _ _ _ _ _ h
    · exact stream_exit_dev _ _ _ _ _ h
    · exact stream_exit_dev _ _ _ _ _ h
    · rw [← Option.some.inj h]; rfl
  rw [if_neg c6] at h
  by_cases c5 : req = SET_ADDRESS
  · have hd : devAfter ty req v i s.dev e.state.dev.keyboard_leds = s.dev := by
      subst c5; simp [devAfter, SET_ADDRESS, SET_CONFIGURATION, HID_SET_REPORT, HID_SET_IDLE,
        HID_SET_PROTOCOL]
    rw [hd]
    rw [if_pos c5] at h
    cases hw : waitUEINTX (1 <<< TXINI) (clearTXINI s) with
    | none => simp [hw] at h
    | some t =>
      simp only [hw] at h
      rw [← Option.some.inj h]
      show t.dev = s.dev
      rw [waitUEINTX_dev _ _ _ hw, clearTXINI_eq]
  rw [if_neg c5] at h
  by_cases c9 : req = SET_CONFIGURATION ∧ ty = 0
  · rw [if_pos c9] at h
    rw [← Option.some.inj h]
    simp [devAfter, c9, Exit.state, clearTXINI_eq, wrUENUM, wrUECONX, wrUECFG0X, wrUECFG1X,
      wrUERST]
  rw [if_neg c9] at h
  have d9 : ∀ led, devAfter ty req v i s.dev led =
      if ty = 0x21 ∧ i = 0 ∧ req = HID_SET_REPORT then { s.dev with keyboard_leds := led }
      else if ty = 0x21 ∧ i = 0 ∧ req = HID_SET_IDLE then
        { s.dev with keyboard_idle_config := (v >>> 8) % 256, keyboard_idle_count := 0 }
      else if ty = 0x21 ∧ i = 0 ∧ req = HID_SET_PROTOCOL then
        { s.dev with keyboard_protocol := v % 256 }
      else s.dev := by
    intro led; unfold devAfter; rw [if_neg c9]
  rw [d9]
  by_cases c8 : req = GET_CONFIGURATION ∧ ty = 0x80
  · rw [if_pos c8] at h
    have hd : ¬ ty = 0x21 := by rw [c8.2]; decide
    simp only [hd, false_and, if_false]
    cases hw : waitUEINTX (1 <<< TXINI) s with
    | none => simp [hw] at h
    | some t =>
      simp only [hw] at h
      rw [← Option.some.inj h]
      show (clearTXINI (wrUEDATX _ t)).dev = s.dev
      rw [clearTXINI_eq, ← waitUEINTX_dev _ _ _ hw]; rfl
  rw [if_neg c8] at h
  by_cases c0 : req = GET_STATUS
  · rw [if_pos c0] at h
    have hd : ¬ req = HID_SET_REPORT ∧ ¬ req = HID_SET_IDLE ∧ ¬ req = HID_SET_PROTOCOL := by
      rw [c0]; decide
    simp only [hd, and_false, if_false]
    cases hw : waitUEINTX (1 <<< TXINI) s with
    | none => simp [hw] at h
    | some t =>
      simp only [hw] at h
      rw [← Option.some.inj h, ← waitUEINTX_dev _ _ _ hw]
      by_cases h82 : ty = 0x82 <;> simp [h82, Exit.state, wrUEINTX, wrUEDATX, wrUENUM]
  rw [if_neg c0] at h
  by_cases cf : (req = CLEAR_FEATURE ∨ req = SET_FEATURE) ∧ ty = 0x02 ∧ v = 0
  · rw [if_pos cf] at h
    have hd : ¬ ty = 0x21 := by rw [cf.2.1]; decide
    simp only [hd, false_and, if_false]
    simp only [] at h
    split_ifs at h <;> (rw [← Option.some.inj h]; rfl)
  rw [if_neg cf] at h
  by_cases ck : i = KEYBOARD_INTERFACE
  · rw [if_pos ck] at h
    have hi : i = 0 := ck
    by_cases ca : ty = 0xA1
    · rw [if_pos ca] at h
      have hd : ¬ ty = 0x21 := by rw [ca]; decide
      simp only [hd, false_and, if_false]
      split_ifs at h
      · cases hw : waitUEINTX (1 <<< TXINI) s with
        | none => simp [hw] at h
        | some t =>
          simp only [hw] at h
          rw [← Option.some.inj h, ← waitUEINTX_dev _ _ _ hw]
          show (writeBytes _ _ _ _).dev = _
          rw [writeBytes_dev]; rfl
      · cases hw : waitUEINTX (1 <<< TXINI) s with
        | none => simp [hw] at h
        | some t =>
          simp only [hw] at h
          rw [← Option.some.inj h, ← waitUEINTX_dev _ _ _ hw]; rfl
      · cases hw : waitUEINTX (1 <<< TXINI) s with
        | none => simp [hw] at h
        | some t =>
          simp only [hw] at h
          rw [← Option.some.inj h, ← waitUEINTX_dev _ _ _ hw]; rfl
      · rw [← Option.some.inj h]; rfl
    rw [if_neg ca] at h
    by_cases cb : ty = 0x21
    · rw [if_pos cb] at h
      by_cases r9 : req = HID_SET_REPORT
      · rw [if_pos r9] at h
        simp only [cb, hi, r9, and_self, if_true]
        cases hw : waitUEINTX (1 <<< RXOUTI) s with
        | none => simp [hw] at h
        | some t =>
          simp only [hw] at h
          rw [← Option.some.inj h, ← waitUEINTX_dev _ _ _ hw]
          have hr : (rdUEDATX t).2.dev = t.dev := by
            unfold rdUEDATX; cases t.uedatxIn <;> rfl
          simp [Exit.state, wrUEINTX, hr]
      rw [if_neg r9] at h
      by_cases r10 : req = HID_SET_IDLE
      · rw [if_pos r10] at h
        have : ¬ HID_SET_IDLE = HID_SET_REPORT := by decide
        simp only [cb, hi, r10, this, and_self, and_false, if_true, if_false]
        rw [← Option.some.inj h]; rfl
      rw [if_neg r10] at h
      by_cases r11 : req = HID_SET_PROTOCOL
      · rw [if_pos r11] at h
        have h1 : ¬ HID_SET_PROTOCOL = HID_SET_REPORT := by decide
        have h2 : ¬ HID_SET_PROTOCOL = HID_SET_IDLE := by decide
        simp only [cb, hi, r11, h1, h2, and_self, and_false, if_true, if_false]
        rw [← Option.some.inj h]; rfl
      rw [if_neg r11] at h
      simp only [r9, r10, r11, and_false, if_false]
      rw [← Option.some.inj h]; rfl
    rw [if_neg cb] at h
    simp only [cb, false_and, if_false]
    rw [← Option.some.inj h]; rfl
  rw [if_neg ck] at h
  have hi : ¬ i = 0 := ck
  simp only [hi, false_and, and_false, if_false]
  rw [← Option.some.inj h]; rfl


theorem rdUEDATX_dev (t : State) : (rdUEDATX t).2.dev = t.dev := by
  unfold rdUEDATX; cases t.uedatxIn <;> rfl

theorem leave_dev (x : Option Exit) (s' : State) (h : leave x = some s') :
    ∃ e, x = some e ∧ s'.dev = e.state.dev := by
  cases x with
  | none => simp [leave] at h
  | some e =>
    cases e with
    | returned s => exact ⟨_, rfl, by rw [← Option.some.inj h]; rfl⟩
    | fellThrough s => exact ⟨_, rfl, by rw [← Option.some.inj h]; rfl⟩

theorem setup_dev (s s' : State) (p : Setup) (rest : List Nat) (hp : p.wf)
    (hin : s.uedatxIn = p.bytes ++ rest) (hflag : nextUEINTX s &&& (1 <<< RXSTPI) ≠ 0)
    (h : USB_COM_vect s = some s') :
    s'.dev = devAfter p.bmRequestType p.bRequest p.wValue p.wIndex s.dev
      s'.dev.keyboard_leds := by
  rw [USB_COM_vect_setup s p rest hp hin hflag] at h
  obtain ⟨e, he, hd⟩ := leave_dev _ _ h
  have := dispatch_dev _ _ _ _ _ _ _ he
  rw [hd]
  exact this

theorem writeReport_dev (s : State) : (writeReport s).dev = s.dev := by
  unfold writeReport
  rw [writeBytes_dev]; rfl

/-- C11: `HID SET_REPORT` (`bmRequestType = 0x21`, `wIndex = 0`) with the byte `b` as the
first byte of the data stage, `RXOUTI` eventually set, returns with `keyboard_leds = b` and
every other Device State field unchanged; it consumes that one byte and acknowledges the
data and status stages. -/
theorem set_report_stores_leds (s : State) (b v l : Nat) (rest : List Nat)
    (hb : b < 256) (hv : v < 65536) (hl : l < 65536)
    (hin : s.uedatxIn = (Setup.mk 0x21 HID_SET_REPORT v 0 l).bytes ++ b :: rest)
    (hflag : nextUEINTX s &&& (1 <<< RXSTPI) ≠ 0)
    (hready : (s.ueintxIdle % 256) &&& (1 <<< RXOUTI) ≠ 0) :
    ∃ s', USB_COM_vect s = some s' ∧ s'.dev = { s.dev with keyboard_leds := b } ∧
      s'.uedatxIn = rest ∧
      s'.log = s.log ++ [Ev.UEINTX 0 0xF2, Ev.UEINTX 0 0xFB, Ev.UEINTX 0 0xFE] := by
  rw [USB_COM_vect_setup s _ (b :: rest) ⟨by simp, by simp [HID_SET_REPORT], hv, by simp, hl⟩
    hin hflag]
  obtain ⟨r, hr⟩ := waitUEINTX_ready (1 <<< RXOUTI) (afterSetup s (b :: rest)) hready
  simp only [dispatch, GET_DESCRIPTOR, SET_ADDRESS, SET_CONFIGURATION,
    GET_CONFIGURATION, GET_STATUS, CLEAR_FEATURE, SET_FEATURE, HID_SET_REPORT,
    KEYBOARD_INTERFACE]
  simp only [hr, leave]
  simp [afterSetup, rdUEDATX, wrUEINTX, not8, TXINI, RXOUTI, Nat.mod_eq_of_lt hb]

theorem set_report_stores_leds_witness :
    (nextUEINTX (powerOn.arrive [8] 4 ((Setup.mk 0x21 HID_SET_REPORT 0x0200 0 1).bytes ++
        5 :: [])) &&& (1 <<< RXSTPI) ≠ 0 ∧
      ((powerOn.arrive [8] 4 ((Setup.mk 0x21 HID_SET_REPORT 0x0200 0 1).bytes ++
        5 :: [])).ueintxIdle % 256) &&& (1 <<< RXOUTI) ≠ 0) ∧
    ∃ s', USB_COM_vect (powerOn.arrive [8] 4 ((Setup.mk 0x21 HID_SET_REPORT 0x0200 0 1).bytes ++
        5 :: [])) = some s' ∧
      s'.dev = { (powerOn.arrive [8] 4 ((Setup.mk 0x21 HID_SET_REPORT 0x0200 0 1).bytes ++
        5 :: [])).dev with keyboard_leds := 5 } ∧
      s'.uedatxIn = [] ∧
      s'.log = (powerOn.arrive [8] 4 ((Setup.mk 0x21 HID_SET_REPORT 0x0200 0 1).bytes ++
        5 :: [])).log ++ [Ev.UEINTX 0 0xF2, Ev.UEINTX 0 0xFB, Ev.UEINTX 0 0xFE] :=
  ⟨⟨by decide, by decide⟩,
   set_report_stores_leds
    (powerOn.arrive [8] 4 ((Setup.mk 0x21 HID_SET_REPORT 0x0200 0 1).bytes ++ 5 :: []))
    5 0x0200 1 [] (by decide) (by decide) (by decide) rfl (by decide) (by decide)⟩

theorem handle_dev (e : Irq) (s s' : State) (hw : e.wf) (h : e.handle s = some s') :
    (∃ u fl idle, e = Irq.gen u fl idle ∧
      s'.dev = (USB_GEN_vect { s with UDINT := u, ueintxIn := fl, ueintxIdle := idle }).dev) ∨
    (∃ p flags fl idle data, e = Irq.setup p flags fl idle data ∧
      s'.dev = devAfter p.bmRequestType p.bRequest p.wValue p.wIndex s.dev
        s'.dev.keyboard_leds) := by
  cases e with
  | gen u fl idle =>
    left
    exact ⟨u, fl, idle, rfl, by rw [← Option.some.inj h]⟩
  | setup p flags fl idle data =>
    right
    refine ⟨p, flags, fl, idle, data, rfl, ?_⟩
    exact setup_dev (s.arrive (flags :: fl) idle (p.bytes ++ data)) s' p data hw.1 rfl hw.2 h

theorem USB_GEN_vect_idle (s : State) (h : IdleInv s.dev) : IdleInv (USB_GEN_vect s).dev := by
  obtain ⟨h1, h2, h3⟩ := h
  unfold USB_GEN_vect
  simp only [wrUENUM, wrUECONX, wrUECFG0X, wrUECFG1X, wrUEIENX, wrUEINTX, rdUEINTX_tail]
  split_ifs <;> simp only [IdleInv, writeReport_dev] at * <;> omega

theorem handle_idle (e : Irq) (s s' : State) (hw : e.wf) (hi : IdleInv s.dev)
    (h : e.handle s = some s') : IdleInv s'.dev := by
  rcases handle_dev e s s' hw h with ⟨u, fl, idle, rfl, hd⟩ | ⟨p, flags, fl, idle, data, rfl, hd⟩
  · rw [hd]
    exact USB_GEN_vect_idle _ hi
  · rw [hd]
    obtain ⟨h1, h2, h3⟩ := hi
    unfold devAfter
    split_ifs
    · exact ⟨h1, h2, h3⟩
    · exact ⟨h1, h2, h3⟩
    · exact ⟨Nat.mod_lt _ (by decide), Nat.zero_lt_succ _, fun h => h⟩
    · exact ⟨h1, h2, h3⟩
    · exact ⟨h1, h2, h3⟩

theorem handleAll_idle : ∀ (evs : List Irq) (s s' : State), (∀ e ∈ evs, e.wf) →
    IdleInv s.dev → handleAll evs s = some s' → IdleInv s'.dev := by
  intro evs
  induction evs with
  | nil => intro s s' _ hi h; rw [← Option.some.inj h]; exact hi
  | cons e es ih =>
    intro s s' hw hi h
    simp only [handleAll] at h
    cases h1 : e.handle s with
    | none => simp [h1] at h
    | some s1 =>
      simp only [h1, Option.some_bind] at h
      exact ih s1 s' (fun x hx => hw x (by simp [hx]))
        (handle_idle e s s1 (hw e (by simp)) hi h1) h

/-- C18: in every state reached from power-on (`idle_config = 125`, `idle_count = 0`) by a
sequence of general interrupts (any `UDINT`: bus resets, start-of-frame events) and
well-formed SETUP packets, `idle_config > 0` implies `idle_count < idle_config`; so for a
nonzero idle rate the increment of `idle_count` at the next tick does not wrap
(`(idle_count + 1) % 256 = idle_count + 1`) and the match with `idle_config` is reached by
counting up. -/
theorem idle_count_below_config (evs : List Irq) (s : State)
    (hwf : ∀ e ∈ evs, e.wf) (hrun : handleAll evs powerOn = some s) :
    powerOn.dev.keyboard_idle_config = 125 ∧ powerOn.dev.keyboard_idle_count = 0 ∧
    (0 < s.dev.keyboard_idle_config → s.dev.keyboard_idle_count < s.dev.keyboard_idle_config) ∧
    (0 < s.dev.keyboard_idle_config →
      (s.dev.keyboard_idle_count + 1) % 256 = s.dev.keyboard_idle_count + 1 ∧
      s.dev.keyboard_idle_count + 1 ≤ s.dev.keyboard_idle_config) := by
  obtain ⟨h1, h2, h3⟩ := handleAll_idle evs powerOn s hwf
    ⟨by decide, by decide, fun _ => by decide⟩ hrun
  exact ⟨rfl, rfl, h3, fun h => by have := h3 h; omega⟩

theorem idle_count_below_config_witness :
    (∀ e ∈ [Irq.setup (Setup.mk 0 SET_CONFIGURATION 1 0 0) 8 [] 0 [],
        Irq.setup (Setup.mk 0x21 HID_SET_IDLE 0x0100 0 0) 8 [] 0 [],
        Irq.gen (1 <<< SOFI) [] (1 <<< RWAL), Irq.gen (1 <<< SOFI) [] (1 <<< RWAL),
        Irq.gen (1 <<< SOFI) [] (1 <<< RWAL), Irq.gen (1 <<< SOFI) [] (1 <<< RWAL)], e.wf) ∧
    ∃ s, handleAll [Irq.setup (Setup.mk 0 SET_CONFIGURATION 1 0 0) 8 [] 0 [],
        Irq.setup (Setup.mk 0x21 HID_SET_IDLE 0x0100 0 0) 8 [] 0 [],
        Irq.gen (1 <<< SOFI) [] (1 <<< RWAL), Irq.gen (1 <<< SOFI) [] (1 <<< RWAL),
        Irq.gen (1 <<< SOFI) [] (1 <<< RWAL), Irq.gen (1 <<< SOFI) [] (1 <<< RWAL)]
        powerOn = some s ∧
      (0 < s.dev.keyboard_idle_config →
        s.dev.keyboard_idle_count < s.dev.keyboard_idle_config) := by
  obtain ⟨s, hs⟩ := Option.isSome_iff_exists.mp
    (by decide : (handleAll [Irq.setup (Setup.mk 0 SET_CONFIGURATION 1 0 0) 8 [] 0 [],
        Irq.setup (Setup.mk 0x21 HID_SET_IDLE 0x0100 0 0) 8 [] 0 [],
        Irq.gen (1 <<< SOFI) [] (1 <<< RWAL), Irq.gen (1 <<< SOFI) [] (1 <<< RWAL),
        Irq.gen (1 <<< SOFI) [] (1 <<< RWAL), Irq.gen (1 <<< SOFI) [] (1 <<< RWAL)]
        powerOn).isSome = true)
  exact ⟨by decide, s, hs, (idle_count_below_config _ s (by decide) hs).2.2.1⟩

/-! ## The descriptor tables -/

/-- C13: `device_descriptor` has 18 bytes, `bLength = 18`, `bDescriptorType = 1` and
`bNumConfigurations = 1`; `configuration_descriptor` has 34 bytes, its little-endian
`wTotalLength` (bytes 2..3) is 34, and the walk by `bLength` bytes visits exactly four
descriptors, of types 2, 4, 0x21, 5 and lengths 9, 9, 9, 7, ending exactly at byte 34; the
interface descriptor (at offset 9) has `bNumEndpoints = 1`, class 3 (HID), subclass 1
(Boot), protocol 1 (Keyboard). -/
theorem descriptor_tables_well_formed :
    device_descriptor.length = 18 ∧ device_descriptor.getD 0 0 = 18 ∧
    device_descriptor.getD 1 0 = 1 ∧ device_descriptor.getD 17 0 = 1 ∧
    configuration_descriptor.length = 34 ∧
    configuration_descriptor.getD 2 0 + 256 * configuration_descriptor.getD 3 0 = 34 ∧
    walkDescriptors configuration_descriptor.length configuration_descriptor =
      some [(2, 9), (4, 9), (0x21, 9), (5, 7)] ∧
    9 + 9 + 9 + 7 = configuration_descriptor.length ∧
    configuration_descriptor.getD (9 + 4) 0 = 1 ∧
    configuration_descriptor.getD (9 + 5) 0 = 3 ∧
    configuration_descriptor.getD (9 + 6) 0 = 1 ∧
    configuration_descriptor.getD (9 + 7) 0 = 1 := by
  decide

/-- C17: parsed as HID short items, `keyboard_hid_report_desc` (63 bytes) declares, in one
application collection, the Input fields of 8 one-bit variable modifier flags (key-code
usages 224..231), one constant 8-bit field and six 8-bit array key codes with logical range
0..104, and the Output fields of 5 one-bit variable LEDs (usages 1..5) and one constant
3-bit field: 64 input bits, the 8 bytes `writeReport` writes, and 8 output bits, the one
byte `HID SET_REPORT` reads; and `wDescriptorLength` of the HID descriptor (bytes 25..26 of
`configuration_descriptor`) is 63, the length of the report descriptor. -/
theorem report_descriptor_is_boot_keyboard :
    keyboard_hid_report_desc.length = 63 ∧
    parseHid keyboard_hid_report_desc.length keyboard_hid_report_desc
        { usagePage := 0, logicalMin := 0, logicalMax := 0, reportSize := 0, reportCount := 0,
          usageMin := 0, usageMax := 0, depth := 0 } =
      some [
        { output := false, flags := 0x02, usagePage := 7, usageMin := 224, usageMax := 231,
          logicalMin := 0, logicalMax := 1, reportSize := 1, reportCount := 8 },
        { output := false, flags := 0x03, usagePage := 7, usageMin := 0, usageMax := 0,
          logicalMin := 0, logicalMax := 1, reportSize := 8, reportCount := 1 },
        { output := true, flags := 0x02, usagePage := 8, usageMin := 1, usageMax := 5,
          logicalMin := 0, logicalMax := 1, reportSize := 1, reportCount := 5 },
        { output := true, flags := 0x03, usagePage := 8, usageMin := 0, usageMax := 0,
          logicalMin := 0, logicalMax := 1, reportSize := 3, reportCount := 1 },
        { output := false, flags := 0x00, usagePage := 7, usageMin := 0, usageMax := 104,
          logicalMin := 0, logicalMax := 104, reportSize := 8, reportCount := 6 }] ∧
    (parseHid keyboard_hid_report_desc.length keyboard_hid_report_desc
        { usagePage := 0, logicalMin := 0, logicalMax := 0, reportSize := 0, reportCount := 0,
          usageMin := 0, usageMax := 0, depth := 0 }).map
      (fun fs => (fieldBits false fs, fieldBits true fs)) = some (64, 8) ∧
    8 * (txBytes 0 (writeReport powerOn).log).length = 64 ∧
    (USB_COM_vect (powerOn.arrive [8] 4
        ((Setup.mk 0x21 HID_SET_REPORT 0x0200 0 1).bytes ++ [5, 7]))).map
      (fun s => (s.dev.keyboard_leds, s.uedatxIn)) = some (5, [7]) ∧
    configuration_descriptor.getD 25 0 + 256 * configuration_descriptor.getD 26 0 =
      keyboard_hid_report_desc.length := by
  decide

/-! ## Start of frame without a flush -/

/-- C14: a run of `ISR(USB_GEN_vect)`, for any value of `UDINT` and so for a start-of-frame
event, writes no byte to a FIFO and nothing to `UEINTX` and leaves `idle_count` unchanged
whenever `current_configuration = 0` or the next read of `UEINTX` shows `RWAL` clear; with
`current_configuration = 0` it leaves the frame counter `div4` unchanged too. -/
theorem sof_without_flush (s : State) (u : Nat)
    (h : s.dev.current_configuration = 0 ∨ nextUEINTX s &&& (1 <<< RWAL) = 0) :
    (genEvent u s).log = s.log ∧
    (genEvent u s).dev.keyboard_idle_count = s.dev.keyboard_idle_count ∧
    (s.dev.current_configuration = 0 → (genEvent u s).div4 = s.div4) := by
  have hf : ∀ t : State, (rdUEINTX t).1 = nextUEINTX t := by
    intro t
    simp [rdUEINTX, nextUEINTX, headRead]; cases t.ueintxIn <;> simp
  unfold genEvent USB_GEN_vect
  simp only [wrUENUM, wrUECONX, wrUECFG0X, wrUECFG1X, wrUEIENX, hf, rdUEINTX_tail, nextUEINTX]
  rcases h with h | h
  · split_ifs <;> simp_all
  · unfold nextUEINTX at h
    split_ifs <;> simp_all <;> omega

theorem sof_without_flush_witness :
    (powerOn.dev.current_configuration = 0 ∨ nextUEINTX powerOn &&& (1 <<< RWAL) = 0) ∧
    (genEvent (1 <<< SOFI) powerOn).log = powerOn.log ∧
    (genEvent (1 <<< SOFI) powerOn).dev.keyboard_idle_count =
      powerOn.dev.keyboard_idle_count ∧
    (powerOn.dev.current_configuration = 0 → (genEvent (1 <<< SOFI) powerOn).div4 =
      powerOn.div4) :=
  ⟨Or.inl rfl, sof_without_flush powerOn (1 <<< SOFI) (Or.inl rfl)⟩

/-! ## `SET_CONFIGURATION` and the endpoint configuration table -/

/-- C15: `SET_CONFIGURATION` (`bmRequestType = 0`) leaves in `UECONX`, `UECFG0X` and
`UECFG1X` what programming endpoints 1..4 from `endpoint_config_table` leaves there, the
table read as an enable byte per endpoint followed, if enabled, by a type byte and a
size/buffering byte: endpoints 1, 2 and 4 disabled (`UECONX = 0`), endpoint 3 enabled with
`UECFG0X = EP_TYPE_INTERRUPT_IN = 0xC1` and `UECFG1X = EP_SIZE(8) | EP_DOUBLE_BUFFER = 0x06`;
and it writes `UERST = 0x1E`, the reset bits of endpoints 1..4 and not of endpoint 0, then
`UERST = 0`. -/
theorem set_configuration_programs_table (s : State) (v i l : Nat) (rest : List Nat)
    (hv : v < 65536) (hi : i < 65536) (hl : l < 65536)
    (hin : s.uedatxIn = (Setup.mk 0 SET_CONFIGURATION v i l).bytes ++ rest)
    (hflag : nextUEINTX s &&& (1 <<< RXSTPI) ≠ 0) :
    ∃ s' w, USB_COM_vect s = some s' ∧
      s'.UECONX = (configFromTable 4 1 endpoint_config_table s).UECONX ∧
      s'.UECFG0X = (configFromTable 4 1 endpoint_config_table s).UECFG0X ∧
      s'.UECFG1X = (configFromTable 4 1 endpoint_config_table s).UECFG1X ∧
      s'.UECONX 1 = 0 ∧ s'.UECONX 2 = 0 ∧ s'.UECONX 4 = 0 ∧
      s'.UECONX 3 = 1 ∧ s'.UECFG0X 3 = EP_TYPE_INTERRUPT_IN ∧ EP_TYPE_INTERRUPT_IN = 0xC1 ∧
      s'.UECFG1X 3 = EP_SIZE 8 ||| EP_DOUBLE_BUFFER ∧ EP_SIZE 8 ||| EP_DOUBLE_BUFFER = 0x06 ∧
      s'.UECONX 0 = s.UECONX 0 ∧
      s'.log = s.log ++ [Ev.UEINTX 0 0xF2, Ev.UEINTX 0 w, Ev.UERST 0x1E, Ev.UERST 0] ∧
      0x1E = (1 <<< 4) ||| (1 <<< 3) ||| (1 <<< 2) ||| (1 <<< 1) ∧ 0x1E &&& (1 <<< 0) = 0 := by
  rw [USB_COM_vect_setup s _ rest ⟨by simp, by simp [SET_CONFIGURATION], hv, hi, hl⟩ hin hflag]
  simp [dispatch, GET_DESCRIPTOR, SET_ADDRESS, SET_CONFIGURATION, leave, clearTXINI_eq,
    wrUENUM, wrUECONX, wrUECFG0X, wrUECFG1X, wrUERST, afterSetup, configFromTable,
    endpoint_config_table, EP_TYPE_INTERRUPT_IN, EP_SIZE, KEYBOARD_SIZE, KEYBOARD_BUFFER,
    EP_DOUBLE_BUFFER, EPRST0, EPRST1, EPRST2, EPRST3, EPRST4, EPRST5, EPRST6]

theorem set_configuration_programs_table_witness :
    nextUEINTX (powerOn.arrive [8] 1 (Setup.mk 0 SET_CONFIGURATION 1 0 0).bytes) &&&
      (1 <<< RXSTPI) ≠ 0 ∧
    ∃ s' w, USB_COM_vect (powerOn.arrive [8] 1 (Setup.mk 0 SET_CONFIGURATION 1 0 0).bytes)
        = some s' ∧
      s'.UECONX = (configFromTable 4 1 endpoint_config_table
        (powerOn.arrive [8] 1 (Setup.mk 0 SET_CONFIGURATION 1 0 0).bytes)).UECONX ∧
      s'.UECFG0X = (configFromTable 4 1 endpoint_config_table
        (powerOn.arrive [8] 1 (Setup.mk 0 SET_CONFIGURATION 1 0 0).bytes)).UECFG0X ∧
      s'.UECFG1X = (configFromTable 4 1 endpoint_config_table
        (powerOn.arrive [8] 1 (Setup.mk 0 SET_CONFIGURATION 1 0 0).bytes)).UECFG1X ∧
      s'.UECONX 1 = 0 ∧ s'.UECONX 2 = 0 ∧ s'.UECONX 4 = 0 ∧
      s'.UECONX 3 = 1 ∧ s'.UECFG0X 3 = EP_TYPE_INTERRUPT_IN ∧ EP_TYPE_INTERRUPT_IN = 0xC1 ∧
      s'.UECFG1X 3 = EP_SIZE 8 ||| EP_DOUBLE_BUFFER ∧ EP_SIZE 8 ||| EP_DOUBLE_BUFFER = 0x06 ∧
      s'.UECONX 0 = (powerOn.arrive [8] 1 (Setup.mk 0 SET_CONFIGURATION 1 0 0).bytes).UECONX 0 ∧
      s'.log = (powerOn.arrive [8] 1 (Setup.mk 0 SET_CONFIGURATION 1 0 0).bytes).log ++
        [Ev.UEINTX 0 0xF2, Ev.UEINTX 0 w, Ev.UERST 0x1E, Ev.UERST 0] ∧
      0x1E = (1 <<< 4) ||| (1 <<< 3) ||| (1 <<< 2) ||| (1 <<< 1) ∧ 0x1E &&& (1 <<< 0) = 0 :=
  ⟨by decide, set_configuration_programs_table
    (powerOn.arrive [8] 1 (Setup.mk 0 SET_CONFIGURATION 1 0 0).bytes) 1 0 0 []
    (by decide) (by decide) (by decide) (by simp [State.arrive]) (by decide)⟩

/-! ## The foreground loop of `main` -/

theorem parityLoop_two (state n : Nat) (bit : Bool) :
    parityLoop state (n + 2) bit = parityLoop state n bit := by
  simp only [parityLoop]
  by_cases h : state &&& 0x01 ≠ 0
  · rw [if_pos h, if_pos h, Bool.not_not]
  · rw [if_neg h, if_neg h]

theorem parityLoop_eight (state : Nat) (bit : Bool) : parityLoop state 8 bit = bit := by
  rw [parityLoop_two state 6, parityLoop_two state 4, parityLoop_two state 2,
    parityLoop_two state 0]
  rfl

theorem rdPIND_PORTD (g : Pins) : (rdPIND g).2.PORTD = g.PORTD := by
  unfold rdPIND; cases g.pindIn <;> rfl

theorem nesPollLoop_PORTD : ∀ (n result : Nat) (g : Pins),
    (nesPollLoop n result g).2.PORTD = (nesPollLoop n 0 { PORTD := g.PORTD, pindIn := [] }).2.PORTD := by
  intro n
  induction n with
  | zero => intro result g; rfl
  | succ n ih =>
    intro result g
    simp only [nesPollLoop]
    rw [ih, ih (_ ||| _)]
    simp [clock_pin, rdPIND_PORTD]

/-- C20: in the loop of `main`, for every polled byte `state` the flag `bit` is false after
the eight iterations (each tests bit 0 of the same unshifted `state`), so every pass takes
the else-branch: `PORTD` becomes the value it has after `nes_poll` with bit 5 set, and the
value of `PORTD` after a pass does not depend on what `PIND` showed. -/
theorem main_sets_pin_whatever_polled (g : Pins) (state : Nat) (pins : List Nat) :
    mainBit state = false ∧
    parityLoop state 8 false = false ∧
    (mainIteration g).PORTD = ((nes_poll g).2.PORTD ||| (1 <<< 5)) % 256 ∧
    (mainIteration g).PORTD.testBit 5 = true ∧
    (mainIteration { g with pindIn := pins }).PORTD = (mainIteration g).PORTD := by
  have hbit : ∀ st, mainBit st = false := fun st => parityLoop_eight st false
  have hit : ∀ g : Pins, (mainIteration g).PORTD = ((nes_poll g).2.PORTD ||| (1 <<< 5)) % 256 := by
    intro g
    simp [mainIteration, hbit]
  refine ⟨hbit state, parityLoop_eight state false, hit g, ?_, ?_⟩
  · rw [hit]
    have : (1 <<< 5 : Nat) = 2 ^ 5 := by decide
    rw [show (256 : Nat) = 2 ^ 8 by decide, Nat.testBit_mod_two_pow, Nat.testBit_or, this,
      Nat.testBit_two_pow_self]
    simp
  · rw [hit, hit]
    unfold nes_poll
    rw [nesPollLoop_PORTD, nesPollLoop_PORTD 8 0 (clock_pin LATCH_PIN g)]
    rfl

/-! ## `GET_DESCRIPTOR`: the number and the sizes of the packets -/

theorem get_descriptor_packets (s : State) (ty wValue wLength p n : Nat) (tbl rest : List Nat)
    (hty : ty < 256) (hv : wValue < 65536) (hl : wLength < 65536)
    (hb : ∀ b ∈ tbl, b < 256) (hlen : p + n ≤ tbl.length)
    (hin : s.uedatxIn = (Setup.mk ty GET_DESCRIPTOR wValue 0 wLength).bytes ++ rest)
    (hflag : nextUEINTX s &&& (1 <<< RXSTPI) ≠ 0)
    (hready : (s.ueintxIdle % 256) &&& (1 <<< TXINI) ≠ 0)
    (hd : dispatch ty GET_DESCRIPTOR wValue 0 wLength (afterSetup s rest) =
      (streamLoop tbl p (MIN wLength n) (afterSetup s rest)).map Exit.returned) :
    ∃ s' d, USB_COM_vect s = some s' ∧ s'.log = s.log ++ Ev.UEINTX 0 0xF2 :: d ∧
      (packets 0 d).flatten = (tbl.drop p).take (min wLength n) ∧
      (packets 0 d).length = (min wLength n + 31) / 32 ∧
      (∀ pk ∈ packets 0 d, 1 ≤ pk.length ∧ pk.length ≤ ENDPOINT0_SIZE) ∧
      ∀ pk ∈ (packets 0 d).dropLast, pk.length = ENDPOINT0_SIZE := by
  rw [USB_COM_vect_setup s _ rest ⟨hty, by simp [GET_DESCRIPTOR], hv, by simp, hl⟩ hin hflag]
  simp only [hd, leave_returned, MIN_eq_min]
  obtain ⟨s', d, e1, e2, _, _, _, e6, e7, e8, e9⟩ :=
    streamLoop_spec tbl hb (min wLength n) p (afterSetup s rest) (by omega) rfl hready
  exact ⟨s', d, e1, by simp [e2, afterSetup], e6, e7, e8, e9⟩

theorem full_packets_length : ∀ (P : List (List Nat)), (∀ pk ∈ P, pk.length = 32) →
    P.flatten.length = 32 * P.length := by
  intro P
  induction P with
  | nil => intro _; rfl
  | cons a P ih =>
    intro h
    rw [List.flatten_cons, List.length_append, ih (fun pk hp => h pk (by simp [hp])),
      h a (by simp), List.length_cons]
    omega

theorem packets_shape (P : List (List Nat)) (n : Nat) (hflat : P.flatten.length = n)
    (hcount : P.length = (n + 31) / 32)
    (hb : ∀ pk ∈ P, 1 ≤ pk.length ∧ pk.length ≤ ENDPOINT0_SIZE)
    (hfull : ∀ pk ∈ P.dropLast, pk.length = ENDPOINT0_SIZE) :
    (∀ pk, P.getLast? = some pk →
      pk.length = n - 32 * ((n + 31) / 32 - 1) ∧ 1 ≤ pk.length ∧ pk.length ≤ 32) ∧
    (∀ pk ∈ P, pk ≠ []) ∧ (n = 0 → P = []) := by
  refine ⟨?_, ?_, ?_⟩
  · intro pk hlast
    have hsplit := List.dropLast_append_getLast? pk hlast
    have hmem : pk ∈ P := by rw [← hsplit]; simp
    have h1 := full_packets_length P.dropLast hfull
    have h2 : P.flatten.length = P.dropLast.flatten.length + pk.length := by
      conv_lhs => rw [← hsplit]
      simp
    rw [List.length_dropLast] at h1
    have := hb pk hmem
    simp only [ENDPOINT0_SIZE] at this
    omega
  · intro pk hmem hnil
    have := (hb pk hmem).1
    rw [hnil] at this
    simp at this
  · intro h0
    apply List.eq_nil_of_length_eq_zero
    rw [hcount, h0]

theorem get_descriptor_selected (s : State) (ty wValue wLength : Nat)
    (tbl rest : List Nat) (hty : ty < 256) (hl : wLength < 65536)
    (hsel : (wValue, tbl) ∈
      [(0x0100, device_descriptor), (0x0200, configuration_descriptor),
       (0x2200, keyboard_hid_report_desc),
       (0x2100, (configuration_descriptor.drop KEYBOARD_HID_DESC_OFFSET).take 9)])
    (hin : s.uedatxIn = (Setup.mk ty GET_DESCRIPTOR wValue 0 wLength).bytes ++ rest)
    (hflag : nextUEINTX s &&& (1 <<< RXSTPI) ≠ 0)
    (hready : (s.ueintxIdle % 256) &&& (1 <<< TXINI) ≠ 0) :
    ∃ s' d, USB_COM_vect s = some s' ∧ s'.log = s.log ++ Ev.UEINTX 0 0xF2 :: d ∧
      (packets 0 d).flatten = tbl.take (min wLength tbl.length) ∧
      (packets 0 d).length = (min wLength tbl.length + 31) / 32 ∧
      (∀ pk ∈ packets 0 d, 1 ≤ pk.length ∧ pk.length ≤ ENDPOINT0_SIZE) ∧
      ∀ pk ∈ (packets 0 d).dropLast, pk.length = ENDPOINT0_SIZE := by
  simp only [List.mem_cons, Prod.mk.injEq, List.mem_singleton, List.not_mem_nil,
    or_false] at hsel
  rcases hsel with ⟨rfl, rfl⟩ | ⟨rfl, rfl⟩ | ⟨rfl, rfl⟩ | ⟨rfl, rfl⟩
  · obtain ⟨s', d, e1, e2, e3, e4, e5, e6⟩ := get_descriptor_packets s ty 0x0100 wLength 0
      device_descriptor.length device_descriptor rest hty (by decide) hl (by decide)
      (by omega) hin hflag hready (by simp [dispatch])
    exact ⟨s', d, e1, e2, by simpa using e3, e4, e5, e6⟩
  · obtain ⟨s', d, e1, e2, e3, e4, e5, e6⟩ := get_descriptor_packets s ty 0x0200 wLength 0
      configuration_descriptor.length configuration_descriptor rest hty (by decide) hl
      (by decide) (by omega) hin hflag hready (by simp [dispatch])
    exact ⟨s', d, e1, e2, by simpa using e3, e4, e5, e6⟩
  · obtain ⟨s', d, e1, e2, e3, e4, e5, e6⟩ := get_descriptor_packets s ty 0x2200 wLength 0
      keyboard_hid_report_desc.length keyboard_hid_report_desc rest hty (by decide) hl
      (by decide) (by omega) hin hflag hready (by simp [dispatch])
    exact ⟨s', d, e1, e2, by simpa using e3, e4, e5, e6⟩
  · obtain ⟨s', d, e1, e2, e3, e4, e5, e6⟩ := get_descriptor_packets s ty 0x2100 wLength
      KEYBOARD_HID_DESC_OFFSET 9 configuration_descriptor rest hty (by decide) hl
      (by decide) (by decide) hin hflag hready (by simp [dispatch])
    have h9 : ((configuration_descriptor.drop KEYBOARD_HID_DESC_OFFSET).take 9).length = 9 :=
      rfl
    refine ⟨s', d, e1, e2, ?_, by rw [h9]; exact e4, e5, e6⟩
    rw [e3, h9, List.take_take]
    congr 1
    omega

/-- C16: for a supported `GET_DESCRIPTOR` request with `n = min wLength L` (`L` the length
of the selected table) and `TXINI` eventually set, the handler returns, and after the SETUP
acknowledge the streaming loop has released exactly `(n + 31) / 32` packets on endpoint 0:
every packet but the last has exactly 32 bytes, the last has
`n - 32 * ((n + 31) / 32 - 1)` bytes, between 1 and 32, no packet is empty, and for
`n = 0` there is no packet; for `wValue = 0x0100` and `wLength = 64` the only packet is the
18 bytes of `device_descriptor`. -/
theorem get_descriptor_packet_count (s : State) (ty wValue wLength : Nat)
    (tbl rest : List Nat) (hty : ty < 256) (hl : wLength < 65536)
    (hsel : (wValue, tbl) ∈
      [(0x0100, device_descriptor), (0x0200, configuration_descriptor),
       (0x2200, keyboard_hid_report_desc),
       (0x2100, (configuration_descriptor.drop KEYBOARD_HID_DESC_OFFSET).take 9)])
    (hin : s.uedatxIn = (Setup.mk ty GET_DESCRIPTOR wValue 0 wLength).bytes ++ rest)
    (hflag : nextUEINTX s &&& (1 <<< RXSTPI) ≠ 0)
    (hready : (s.ueintxIdle % 256) &&& (1 <<< TXINI) ≠ 0) :
    ∃ s' d, USB_COM_vect s = some s' ∧ s'.log = s.log ++ Ev.UEINTX 0 0xF2 :: d ∧
      (packets 0 d).flatten = tbl.take (min wLength tbl.length) ∧
      (packets 0 d).length = (min wLength tbl.length + 31) / 32 ∧
      (∀ pk ∈ (packets 0 d).dropLast, pk.length = 32) ∧
      (∀ pk, (packets 0 d).getLast? = some pk →
        pk.length = min wLength tbl.length - 32 * ((min wLength tbl.length + 31) / 32 - 1) ∧
        1 ≤ pk.length ∧ pk.length ≤ 32) ∧
      (∀ pk ∈ packets 0 d, pk ≠ []) ∧
      (min wLength tbl.length = 0 → packets 0 d = []) ∧
      (wValue = 0x0100 → wLength = 64 → packets 0 d = [device_descriptor]) := by
  obtain ⟨s', d, e1, e2, e3, e4, e5, e6⟩ :=
    get_descriptor_selected s ty wValue wLength tbl rest hty hl hsel hin hflag hready
  have hflat : (packets 0 d).flatten.length = min wLength tbl.length := by
    rw [e3, List.length_take]; omega
  obtain ⟨g1, g2, g3⟩ := packets_shape (packets 0 d) _ hflat e4 e5 e6
  refine ⟨s', d, e1, e2, e3, e4, e6, g1, g2, g3, ?_⟩
  intro hw h64
  have ht : tbl = device_descriptor := by
    subst hw
    simp only [List.mem_cons, Prod.mk.injEq, List.mem_singleton, List.not_mem_nil,
      or_false] at hsel
    rcases hsel with ⟨_, h⟩ | ⟨h, _⟩ | ⟨h, _⟩ | ⟨h, _⟩
    · exact h
    · exact absurd h (by decide)
    · exact absurd h (by decide)
    · exact absurd h (by decide)
  subst ht h64
  have hc : (packets 0 d).length = 1 := by rw [e4]; rfl
  match hP : packets 0 d, hc with
  | [x], _ =>
    rw [hP] at e3
    simp only [List.flatten_cons, List.flatten_nil, List.append_nil] at e3
    rw [e3]
    rfl

theorem get_descriptor_packet_count_witness :
    ((0x0100, device_descriptor) ∈
      [(0x0100, device_descriptor), (0x0200, configuration_descriptor),
       (0x2200, keyboard_hid_report_desc),
       (0x2100, (configuration_descriptor.drop KEYBOARD_HID_DESC_OFFSET).take 9)] ∧
     nextUEINTX (powerOn.arrive [8] 1 (Setup.mk 0x80 GET_DESCRIPTOR 0x0100 0 64).bytes) &&&
       (1 <<< RXSTPI) ≠ 0) ∧
    ∃ s' d, USB_COM_vect (powerOn.arrive [8] 1
        (Setup.mk 0x80 GET_DESCRIPTOR 0x0100 0 64).bytes) = some s' ∧
      s'.log = (powerOn.arrive [8] 1 (Setup.mk 0x80 GET_DESCRIPTOR 0x0100 0 64).bytes).log ++
        Ev.UEINTX 0 0xF2 :: d ∧
      packets 0 d = [device_descriptor] := by
  obtain ⟨s', d, e1, e2, _, _, _, _, _, _, e9⟩ := get_descriptor_packet_count
    (powerOn.arrive [8] 1 (Setup.mk 0x80 GET_DESCRIPTOR 0x0100 0 64).bytes)
    0x80 0x0100 64 device_descriptor [] (by decide) (by decide) (by simp)
    (by simp [State.arrive]) (by decide) (by decide)
  exact ⟨⟨by simp, by decide⟩, s', d, e1, e2, e9 rfl rfl⟩

/-! ## The descriptors against the handlers -/

theorem reportEvents_bytes (m : Nat) (keys : List Nat) :
    txBytes KEYBOARD_ENDPOINT (reportEvents m keys) = m :: 0 :: keys := by
  unfold reportEvents
  rw [txBytes_append, txBytes_append]
  have := txBytes_map KEYBOARD_ENDPOINT id keys
  simp only [id, List.map_id'] at this
  have h : keys.map (Ev.UEDATX KEYBOARD_ENDPOINT) =
      keys.map (fun b => Ev.UEDATX KEYBOARD_ENDPOINT b) := rfl
  rw [h, this]
  simp [txBytes]

/-- C19: `bMaxPacketSize0` (byte 7 of `device_descriptor`) is `ENDPOINT0_SIZE = 32`; no
packet of a `GET_DESCRIPTOR` reply carries more than that and, when more than 32 bytes are
sent, a packet carries exactly that; a bus reset programs endpoint 0 with
`EP_SIZE(32) = 0x20`.  The endpoint descriptor (offset 27 of `configuration_descriptor`) has
`bEndpointAddress = 0x83` (IN, endpoint `KEYBOARD_ENDPOINT = 3`), `bmAttributes = 3`
(interrupt) and `wMaxPacketSize = 8`; `SET_CONFIGURATION` enables endpoint 3 with
`UECFG0X = EP_TYPE_INTERRUPT_IN`, and a start-of-frame event that flushes a report writes
its 8 bytes, and the `UEINTX` write after them, with endpoint 3 selected. -/
theorem descriptors_match_handlers
    (s₁ : State) (ty wValue wLength : Nat) (tbl rest₁ : List Nat)
    (s₂ : State) (s₃ : State) (v i l : Nat) (rest₃ : List Nat)
    (s₄ : State) (k m u : Nat) (keys : List Nat)
    (hty : ty < 256) (hl₁ : wLength < 65536)
    (hsel : (wValue, tbl) ∈
      [(0x0100, device_descriptor), (0x0200, configuration_descriptor),
       (0x2200, keyboard_hid_report_desc),
       (0x2100, (configuration_descriptor.drop KEYBOARD_HID_DESC_OFFSET).take 9)])
    (hin₁ : s₁.uedatxIn = (Setup.mk ty GET_DESCRIPTOR wValue 0 wLength).bytes ++ rest₁)
    (hflag₁ : nextUEINTX s₁ &&& (1 <<< RXSTPI) ≠ 0)
    (hready₁ : (s₁.ueintxIdle % 256) &&& (1 <<< TXINI) ≠ 0)
    (hreset : (s₂.UDINT % 256) &&& (1 <<< EORSTI) ≠ 0)
    (hv : v < 65536) (hi : i < 65536) (hl₃ : l < 65536)
    (hin₃ : s₃.uedatxIn = (Setup.mk 0 SET_CONFIGURATION v i l).bytes ++ rest₃)
    (hflag₃ : nextUEINTX s₃ &&& (1 <<< RXSTPI) ≠ 0)
    (hk : k < 256) (hm : m < 256) (h6 : keys.length = 6) (hb : ∀ b ∈ keys, b < 256)
    (hs₄ : Idling k m keys s₄) (hu : isSOF u)
    (hflush : (tick s₄ + 1) % (4 * period k) = 0) :
    (device_descriptor.getD 7 0 = ENDPOINT0_SIZE ∧ ENDPOINT0_SIZE = 32) ∧
    (∃ s' d, USB_COM_vect s₁ = some s' ∧ s'.log = s₁.log ++ Ev.UEINTX 0 0xF2 :: d ∧
      (∀ pk ∈ packets 0 d, pk.length ≤ device_descriptor.getD 7 0) ∧
      (32 < min wLength tbl.length →
        ∃ pk ∈ packets 0 d, pk.length = device_descriptor.getD 7 0)) ∧
    ((USB_GEN_vect s₂).UECFG1X 0 =
        EP_SIZE (device_descriptor.getD 7 0) ||| EP_SINGLE_BUFFER ∧
      EP_SIZE 32 = 0x20) ∧
    (configuration_descriptor.getD 29 0 = 0x83 ∧
      configuration_descriptor.getD 29 0 = KEYBOARD_ENDPOINT ||| 0x80 ∧
      KEYBOARD_ENDPOINT = 3 ∧
      configuration_descriptor.getD 30 0 = 0x03 ∧
      configuration_descriptor.getD 31 0 + 256 * configuration_descriptor.getD 32 0 = 8) ∧
    (∃ s', USB_COM_vect s₃ = some s' ∧ s'.UECONX KEYBOARD_ENDPOINT = 1 ∧
      s'.UECFG0X KEYBOARD_ENDPOINT = EP_TYPE_INTERRUPT_IN) ∧
    ((genEvent u s₄).log = s₄.log ++ reportEvents m keys ∧
      txBytes KEYBOARD_ENDPOINT (reportEvents m keys) = m :: 0 :: keys ∧
      (txBytes KEYBOARD_ENDPOINT (reportEvents m keys)).length =
        configuration_descriptor.getD 31 0 + 256 * configuration_descriptor.getD 32 0 ∧
      ∀ e ∈ reportEvents m keys,
        (∃ b, e = Ev.UEDATX KEYBOARD_ENDPOINT b) ∨ e = Ev.UEINTX KEYBOARD_ENDPOINT 0x3A) := by
  refine ⟨⟨rfl, rfl⟩, ?_, ?_, by decide, ?_, ?_⟩
  · obtain ⟨s', d, e1, e2, _, e4, e5, e6⟩ :=
      get_descriptor_selected s₁ ty wValue wLength tbl rest₁ hty hl₁ hsel hin₁ hflag₁ hready₁
    refine ⟨s', d, e1, e2, fun pk hp => (e5 pk hp).2, ?_⟩
    intro hbig
    have hlen : 0 < (packets 0 d).dropLast.length := by
      rw [List.length_dropLast, e4]; omega
    obtain ⟨pk, hpk⟩ := List.exists_mem_of_length_pos hlen
    exact ⟨pk, List.mem_of_mem_dropLast hpk, e6 pk hpk⟩
  · have hs : USB_GEN_vect s₂ =
        { s₂ with UDINT := 0, UENUM := 0, UECONX := Function.update s₂.UECONX 0 1,
                  UECFG0X := Function.update s₂.UECFG0X 0 0,
                  UECFG1X := Function.update s₂.UECFG1X 0 0x22,
                  UEIENX := Function.update s₂.UEIENX 0 8,
                  dev := { s₂.dev with current_configuration := 0 } } := by
      simp [USB_GEN_vect, hreset, wrUENUM, wrUECONX, wrUECFG0X, wrUECFG1X, wrUEIENX, EP_SIZE,
        ENDPOINT0_SIZE, EP_SINGLE_BUFFER, EP_TYPE_CONTROL, RXSTPE]
    refine ⟨?_, rfl⟩
    rw [hs]
    simp [device_descriptor, ENDPOINT0_SIZE, EP_SIZE, EP_SINGLE_BUFFER]
  · rw [USB_COM_vect_setup s₃ _ rest₃ ⟨by simp, by simp [SET_CONFIGURATION], hv, hi, hl₃⟩
      hin₃ hflag₃]
    simp [dispatch, GET_DESCRIPTOR, SET_ADDRESS, SET_CONFIGURATION, leave, clearTXINI_eq,
      wrUENUM, wrUECONX, wrUECFG0X, wrUECFG1X, wrUERST, afterSetup, KEYBOARD_ENDPOINT,
      EP_TYPE_INTERRUPT_IN]
  · obtain ⟨_, _, hlog⟩ := idling_step k m keys s₄ u hk hm h6 hb hs₄ hu
    rw [hflush, if_pos rfl] at hlog
    refine ⟨hlog, reportEvents_bytes m keys, ?_, ?_⟩
    · rw [reportEvents_bytes, List.length_cons, List.length_cons, h6]
      rfl
    · intro e he
      simp only [reportEvents, List.mem_append, List.mem_cons, List.mem_singleton,
        List.not_mem_nil, or_false, List.mem_map] at he
      rcases he with ((rfl | rfl) | ⟨b, _, rfl⟩) | rfl
      · exact Or.inl ⟨_, rfl⟩
      · exact Or.inl ⟨_, rfl⟩
      · exact Or.inl ⟨_, rfl⟩
      · exact Or.inr rfl

theorem descriptors_match_handlers_witness :
    ((0x0200, configuration_descriptor) ∈
      [(0x0100, device_descriptor), (0x0200, configuration_descriptor),
       (0x2200, keyboard_hid_report_desc),
       (0x2100, (configuration_descriptor.drop KEYBOARD_HID_DESC_OFFSET).take 9)] ∧
     Idling 1 0 [0, 0, 0, 0, 0, 0] { idleOne with div4 := 3 } ∧ isSOF (1 <<< SOFI) ∧
     (tick { idleOne with div4 := 3 } + 1) % (4 * period 1) = 0) ∧
    (∃ s' d, USB_COM_vect (powerOn.arrive [8] 1
        (Setup.mk 0x80 GET_DESCRIPTOR 0x0200 0 255).bytes) = some s' ∧
      s'.log = (powerOn.arrive [8] 1 (Setup.mk 0x80 GET_DESCRIPTOR 0x0200 0 255).bytes).log ++
        Ev.UEINTX 0 0xF2 :: d ∧
      (∀ pk ∈ packets 0 d, pk.length ≤ device_descriptor.getD 7 0) ∧
      (32 < min 255 configuration_descriptor.length →
        ∃ pk ∈ packets 0 d, pk.length = device_descriptor.getD 7 0)) ∧
    (genEvent (1 <<< SOFI) { idleOne with div4 := 3 }).log =
      ({ idleOne with div4 := 3 } : State).log ++ reportEvents 0 [0, 0, 0, 0, 0, 0] := by
  have hI : Idling 1 0 [0, 0, 0, 0, 0, 0] { idleOne with div4 := 3 } :=
    ⟨by decide, rfl, rfl, rfl, by decide, by simp [idleOne, powerOn], by decide⟩
  have h := descriptors_match_handlers
    (powerOn.arrive [8] 1 (Setup.mk 0x80 GET_DESCRIPTOR 0x0200 0 255).bytes)
    0x80 0x0200 255 configuration_descriptor []
    { powerOn with UDINT := 1 <<< EORSTI }
    (powerOn.arrive [8] 1 (Setup.mk 0 SET_CONFIGURATION 1 0 0).bytes) 1 0 0 []
    { idleOne with div4 := 3 } 1 0 (1 <<< SOFI) [0, 0, 0, 0, 0, 0]
    (by decide) (by decide) (by simp) (by simp [State.arrive]) (by decide) (by decide)
    (by decide) (by decide) (by decide) (by decide) (by simp [State.arrive]) (by decide)
    (by decide) (by decide) rfl (by decide) hI (by decide) (by decide)
  exact ⟨⟨by simp, hI, by decide, by decide⟩, h.2.1, h.2.2.2.2.2.1⟩

end Kbd
